import Mathlib

/-!
Shallow embedding of the farm decision engine of qq-farm-bot
(src/src/utils.js and the farm module bundled in src/tools/test-land-features.js),
together with theorems settling the frozen claims about it.

Conventions of the embedding:
  * JavaScript numbers holding timestamps or protobuf int64 values are
    modelled as `Int`; counts, ids and levels as `Nat`.
  * Module-level mutable state is passed explicitly; `Date.now()` and the
    estimated server time are explicit parameters.
  * Every remote call that the engine issues is recorded in a trace
    (`List Call`); the outcome of each remote call is an oracle parameter.
-/

namespace Farm

/-- src/src/utils.js `toTimeSec`: normalizes a timestamp to seconds.
Non-positive values map to 0; values above 1e12 are treated as milliseconds
and floored down to seconds; other values pass through. -/
def toTimeSec (n : Int) : Int :=
  if n ≤ 0 then 0
  else if n > 1000000000000 then n / 1000
  else n

/-- The two module-level fields of the clock estimator in src/src/utils.js:
`serverTimeMs` (0 before the first sync) and `localTimeAtSync`. -/
structure ClockState where
  serverTimeMs : Int
  localTimeAtSync : Int
deriving Repr, DecidableEq

/-- src/src/utils.js `getServerTimeSec`: projected current server time in
seconds, rounded down; before any sync (serverTimeMs = 0) it falls back to
the local wall clock (`Date.now()` is the `dateNowMs` parameter). -/
def getServerTimeSec (cs : ClockState) (dateNowMs : Int) : Int :=
  if cs.serverTimeMs = 0 then dateNowMs.fdiv 1000
  else (cs.serverTimeMs + (dateNowMs - cs.localTimeAtSync)).fdiv 1000

/-- One scheduled phase of a plant (protobuf `phases` entry): the numeric
phase code and the begin/dry/weeds/insect timestamps. -/
structure Phase where
  phase : Nat
  begin_time : Int
  dry_time : Int
  weeds_time : Int
  insect_time : Int
deriving Repr, DecidableEq

/-- Modelled from the spec: the `PlantPhase` enum lives in src/config.js,
which is not among the provided sources; the spec lists the kinds SEED,
GROWING, MATURE, DEAD. They are modelled as distinct numeric codes — no
claim depends on the concrete values, only on their being distinct. -/
def PlantPhase.SEED : Nat := 1

/-- Modelled from the spec: see `PlantPhase.SEED`. -/
def PlantPhase.GROWING : Nat := 2

/-- Modelled from the spec: see `PlantPhase.SEED`. -/
def PlantPhase.MATURE : Nat := 3

/-- Modelled from the spec: see `PlantPhase.SEED`. -/
def PlantPhase.DEAD : Nat := 4

/-- The scan condition of `getCurrentPhase`: the normalized `begin_time` is
strictly positive and not after the current server time. -/
def phaseStarted (p : Phase) (nowSec : Int) : Bool :=
  0 < toTimeSec p.begin_time && toTimeSec p.begin_time ≤ nowSec

/-- The farm module's `getCurrentPhase`, with the estimated server time
passed explicitly (the source reads it via `getServerTimeSec()`): returns
null on an empty list; otherwise scans from the end of the list and returns
the last phase whose normalized begin time is in (0, nowSec]; if none
qualifies, returns the first phase. The `debug` branch of the source only
prints and never changes the result. -/
def getCurrentPhase (phases : List Phase) (nowSec : Int) : Option Phase :=
  if phases.isEmpty then none
  else
    match phases.reverse.find? (fun p => phaseStarted p nowSec) with
    | some p => some p
    | none => phases.head?

/-- The farm module's `getCurrentPhase` with its actual interface: it takes
the phase list plus the log-only `debug` flag and `landLabel`, and derives
the current time from the clock-estimator state and `Date.now()`. -/
def getCurrentPhaseJs (phases : List Phase) (debug : Bool) (landLabel : String)
    (cs : ClockState) (dateNowMs : Int) : Option Phase :=
  let _ := debug
  let _ := landLabel
  getCurrentPhase phases (getServerTimeSec cs dateNowMs)

/-- The occupant of a plot (protobuf `land.plant`): plant id, display name,
phase list, pending dry count and the helper-owner marker lists. -/
structure Plant where
  id : Nat
  name : String
  phases : List Phase
  dry_num : Int
  weed_owners : List Nat
  insect_owners : List Nat
deriving Repr, DecidableEq

/-- One plot of the snapshot (protobuf `land`): id, unlock/upgrade flags,
tier level and the optional occupant. -/
structure Land where
  id : Nat
  unlocked : Bool
  could_unlock : Bool
  could_upgrade : Bool
  level : Int
  plant : Option Plant
deriving Repr, DecidableEq

/-- The classification record built by `analyzeLands`. The source also
collects `harvestableInfo` (plant names and exp values from gameConfig, used
only for logging); it influences no control flow and is not modelled. -/
structure AnalyzeResult where
  harvestable : List Nat
  needWater : List Nat
  needWeed : List Nat
  needBug : List Nat
  growing : List Nat
  empty : List Nat
  dead : List Nat
  eligibleForUnlock : List Nat
  eligibleForUpgrade : List Nat
deriving Repr, DecidableEq

/-- The all-empty initial classification record. -/
def AnalyzeResult.init : AnalyzeResult :=
  ⟨[], [], [], [], [], [], [], [], []⟩

/-- Whether a plot counts as empty in `analyzeLands`: no occupant, or an
occupant with an empty phase list. -/
def landIsEmpty (land : Land) : Bool :=
  match land.plant with
  | none => true
  | some p => p.phases.isEmpty

/-- The needs-water condition of `analyzeLands`: positive pending dry count,
or an elapsed positive dry timer. -/
def needsWater (plant : Plant) (cp : Phase) (nowSec : Int) : Bool :=
  plant.dry_num > 0 ||
    (toTimeSec cp.dry_time > 0 && toTimeSec cp.dry_time ≤ nowSec)

/-- The has-weeds condition of `analyzeLands`: a non-empty weed-owner list,
or an elapsed positive weeds timer. -/
def hasWeeds (plant : Plant) (cp : Phase) (nowSec : Int) : Bool :=
  !plant.weed_owners.isEmpty ||
    (toTimeSec cp.weeds_time > 0 && toTimeSec cp.weeds_time ≤ nowSec)

/-- The has-bugs condition of `analyzeLands`: a non-empty insect-owner list,
or an elapsed positive insect timer. -/
def hasBugs (plant : Plant) (cp : Phase) (nowSec : Int) : Bool :=
  !plant.insect_owners.isEmpty ||
    (toTimeSec cp.insect_time > 0 && toTimeSec cp.insect_time ≤ nowSec)

/-- The body of `analyzeLands`' per-land loop, as a fold step on the
accumulated classification record. The source appends each id to the lists
it belongs to, mirrored here with list concatenation. -/
def analyzeStep (nowSec : Int) (r : AnalyzeResult) (land : Land) :
    AnalyzeResult :=
  let id := land.id
  let r :=
    if land.could_unlock && !land.unlocked then
      { r with eligibleForUnlock := r.eligibleForUnlock ++ [id] }
    else r
  if !land.unlocked then r
  else
    let r :=
      if land.could_upgrade && land.unlocked then
        { r with eligibleForUpgrade := r.eligibleForUpgrade ++ [id] }
      else r
    if landIsEmpty land then { r with empty := r.empty ++ [id] }
    else
      match land.plant with
      | none => r
      | some plant =>
        match getCurrentPhase plant.phases nowSec with
        | none => { r with empty := r.empty ++ [id] }
        | some cp =>
          if cp.phase = PlantPhase.DEAD then { r with dead := r.dead ++ [id] }
          else if cp.phase = PlantPhase.MATURE then
            { r with harvestable := r.harvestable ++ [id] }
          else
            let r :=
              if needsWater plant cp nowSec then
                { r with needWater := r.needWater ++ [id] }
              else r
            let r :=
              if hasWeeds plant cp nowSec then
                { r with needWeed := r.needWeed ++ [id] }
              else r
            let r :=
              if hasBugs plant cp nowSec then
                { r with needBug := r.needBug ++ [id] }
              else r
            { r with growing := r.growing ++ [id] }

/-- The farm module's `analyzeLands`, with the estimated server time passed
explicitly (the source reads `getServerTimeSec()`; `getCurrentPhase` re-reads
the same clock, so a single `nowSec` parameter serves both). -/
def analyzeLands (lands : List Land) (nowSec : Int) : AnalyzeResult :=
  lands.foldl (analyzeStep nowSec) AnalyzeResult.init

/-- The multiset of plot ids held by the four primary classification
buckets. -/
def primaryM (r : AnalyzeResult) : Multiset Nat :=
  (r.dead : Multiset Nat) + (r.harvestable : Multiset Nat) +
    (r.empty : Multiset Nat) + (r.growing : Multiset Nat)

/-- The three growing-need lists always stay inside the growing list. -/
def NeedsInGrowing (r : AnalyzeResult) : Prop :=
  (∀ i ∈ r.needWater, i ∈ r.growing) ∧ (∀ i ∈ r.needWeed, i ∈ r.growing) ∧
    (∀ i ∈ r.needBug, i ∈ r.growing)

/-- A concrete four-plot snapshot: a dead plot, a mature plot, an empty
plot and a growing plot with an elapsed dry timer. -/
def sampleLands : List Land :=
  [⟨1, true, false, false, 1, some ⟨11, "a", [⟨PlantPhase.DEAD, 10, 0, 0, 0⟩], 0, [], []⟩⟩,
   ⟨2, true, false, false, 1, some ⟨12, "b", [⟨PlantPhase.MATURE, 20, 0, 0, 0⟩], 0, [], []⟩⟩,
   ⟨3, true, false, false, 1, none⟩,
   ⟨4, true, false, false, 1, some ⟨13, "c", [⟨PlantPhase.GROWING, 30, 40, 0, 0⟩], 0, [], []⟩⟩]

/-- `EXPAND_RETRY_INTERVAL_MS`: the 10-minute retry interval for unlock and
upgrade failures. -/
def EXPAND_RETRY_INTERVAL_MS : Int := 10 * 60 * 1000

/-- A cooldown map (`Map<landId, lastFailedMs>` in the source), modelled as
a function from land id to the optionally recorded failure time. -/
def CooldownMap := Nat → Option Int

/-- The empty cooldown map. -/
def CooldownMap.empty : CooldownMap := fun _ => none

/-- `map.set(id, t)`. -/
def CooldownMap.set (m : CooldownMap) (id : Nat) (t : Int) : CooldownMap :=
  fun i => if i = id then some t else m i

/-- `map.delete(id)`. -/
def CooldownMap.del (m : CooldownMap) (id : Nat) : CooldownMap :=
  fun i => if i = id then none else m i

/-- The eligibility filter of `checkFarm`:
`const t = map.get(id); return !t || now - t >= EXPAND_RETRY_INTERVAL_MS`.
A recorded time of 0 is falsy in JavaScript and therefore counts as
eligible. -/
def cooldownEligible (m : CooldownMap) (nowMs : Int) (id : Nat) : Bool :=
  match m id with
  | none => true
  | some t => t == 0 || nowMs - t ≥ EXPAND_RETRY_INTERVAL_MS

/-- The two cooldown scopes of the source (`unlockRetryCooldown` and
`upgradeRetryCooldown`). -/
inductive OpKind where
  | unlock : OpKind
  | upgrade : OpKind
deriving DecidableEq, Repr

/-- The pair of module-level cooldown maps. -/
structure CooldownStore where
  unlockMap : CooldownMap
  upgradeMap : CooldownMap

/-- The map of the given operation kind. -/
def CooldownStore.get (s : CooldownStore) : OpKind → CooldownMap
  | .unlock => s.unlockMap
  | .upgrade => s.upgradeMap

/-- The spec's `isEligible(kind, id, now)`, realized by the source's filter
expression on the corresponding map. -/
def isEligible (s : CooldownStore) (k : OpKind) (id : Nat) (nowMs : Int) :
    Bool :=
  cooldownEligible (s.get k) nowMs id

/-- The spec's `recordFailure(kind, id, t)`: `map.set(id, failedTime)`. -/
def recordFailure (s : CooldownStore) (k : OpKind) (id : Nat) (t : Int) :
    CooldownStore :=
  match k with
  | .unlock => { s with unlockMap := s.unlockMap.set id t }
  | .upgrade => { s with upgradeMap := s.upgradeMap.set id t }

/-- The spec's `clear(kind, id)`: `map.delete(id)`. -/
def CooldownStore.clear (s : CooldownStore) (k : OpKind) (id : Nat) :
    CooldownStore :=
  match k with
  | .unlock => { s with unlockMap := s.unlockMap.del id }
  | .upgrade => { s with upgradeMap := s.upgradeMap.del id }

/-- One remote call issued by the engine, as recorded in a cycle trace. -/
inductive Call where
  | getAllLands : Call
  | weedOut (landIds : List Nat) : Call
  | insecticide (landIds : List Nat) : Call
  | waterLand (landIds : List Nat) : Call
  | harvest (landIds : List Nat) : Call
  | unlockOne (landId : Nat) : Call
  | upgradeOne (landId : Nat) : Call
  | removePlant (landIds : List Nat) : Call
  | getShopInfo (shopId : Nat) : Call
  | buyGoods (goodsId : Nat) (num : Nat) (price : Nat) : Call
  | plantOne (seedId : Nat) (landId : Nat) : Call
  | fertilizeOne (landId : Nat) (fertilizerId : Nat) : Call
deriving DecidableEq, Repr

/-- One purchase condition of a shop entry; type 1 is a level gate. -/
structure Cond where
  type : Nat
  param : Nat
deriving Repr, DecidableEq

/-- One entry of the seed shop's `goods_list`. -/
structure GoodsEntry where
  id : Nat
  item_id : Nat
  price : Nat
  unlocked : Bool
  conds : List Cond
  limit_count : Nat
  bought_num : Nat
deriving Repr, DecidableEq

/-- The record pushed onto `available` by `findBestSeed`. -/
structure SeedChoice where
  goodsId : Nat
  seedId : Nat
  price : Nat
  requiredLevel : Nat
deriving Repr, DecidableEq

/-- The `conds` loop of `findBestSeed`: whether all level conditions are
met, together with the last level requirement inspected (the accumulator
starts at 0). -/
def condCheck (level : Nat) : List Cond → Nat → Bool × Nat
  | [], acc => (true, acc)
  | c :: rest, acc =>
    if c.type = 1 then
      if level < c.param then (false, c.param)
      else condCheck level rest c.param
    else condCheck level rest acc

/-- The filtering loop of `findBestSeed` building `available`: unlocked,
level conditions met, purchase limit not exhausted. -/
def toAvailable (level : Nat) (goods : List GoodsEntry) : List SeedChoice :=
  goods.filterMap fun g =>
    if !g.unlocked then none
    else
      match condCheck level g.conds 0 with
      | (false, _) => none
      | (true, reqLevel) =>
        if g.limit_count > 0 && decide (g.bought_num ≥ g.limit_count) then none
        else some ⟨g.id, g.item_id, g.price, reqLevel⟩

/-- Head of the stable sort used by `findBestSeed` (`available.sort(c)[0]`,
JavaScript sort being stable): the earliest element that is minimal for the
comparator, where `lt a b` stands for `c(a, b) < 0`. -/
def sortHead (lt : α → α → Bool) : List α → Option α
  | [] => none
  | x :: xs => some (xs.foldl (fun acc e => if lt e acc then e else acc) x)

/-- Comparator of the forceLowestLevelCrop branch:
`a.requiredLevel - b.requiredLevel || a.price - b.price`. -/
def levelPriceLt (a b : SeedChoice) : Bool :=
  a.requiredLevel < b.requiredLevel ||
    (a.requiredLevel = b.requiredLevel && a.price < b.price)

/-- Comparator `a.requiredLevel - b.requiredLevel` of the low-level static
fallback. -/
def levelAscLt (a b : SeedChoice) : Bool :=
  a.requiredLevel < b.requiredLevel

/-- Comparator `b.requiredLevel - a.requiredLevel` of the high-level static
fallback. -/
def levelDescLt (a b : SeedChoice) : Bool :=
  b.requiredLevel < a.requiredLevel

/-- The ranked-recommendation loop of `findBestSeed`: first catalog entry
matching a ranked seed id. -/
def findRanked (available : List SeedChoice) : List Nat → Option SeedChoice
  | [] => none
  | sid :: rest =>
    match available.find? (fun x => x.seedId = sid) with
    | some hit => some hit
    | none => findRanked available rest

/-- The static fallback at the end of `findBestSeed`:
`state.level && state.level <= 28` sorts ascending by level requirement,
anything else (including the falsy level 0) descending. -/
def fallbackChoice (level : Nat) (available : List SeedChoice) :
    Option SeedChoice :=
  if level ≠ 0 && level ≤ 28 then sortHead levelAscLt available
  else sortHead levelDescLt available

/-- The CONFIG fields the farm module reads. `preferredSeedId = 0` stands
for "unset" (the source tests JavaScript truthiness). -/
structure Config where
  autoExpandLand : Bool
  autoUpgradeRedLand : Bool
  preferredSeedId : Nat
  forceLowestLevelCrop : Bool
deriving Repr, DecidableEq

/-- The tail of `findBestSeed`'s cascade, after the pinned-seed check:
force-cheapest sort, else the external ranking, else the static
fallback. -/
def selectSeedTail (cfg : Config) (level : Nat) (rec : Option (List Nat))
    (available : List SeedChoice) : Option SeedChoice :=
  if cfg.forceLowestLevelCrop then sortHead levelPriceLt available
  else
    match rec with
    | some ranked =>
      match findRanked available ranked with
      | some hit => some hit
      | none => fallbackChoice level available
    | none => fallbackChoice level available

/-- `findBestSeed`: shop query plus the selection cascade. The shop reply
and the external recommendation are oracles (`none` models a throw of
`getShopInfo` and of `getPlantingRecommendation` respectively; the former
propagates to the caller, hence `Except.error`). -/
def findBestSeed (cfg : Config) (level : Nat)
    (shopReply : Option (List GoodsEntry)) (rec : Option (List Nat)) :
    Except Unit (Option SeedChoice) :=
  match shopReply with
  | none => Except.error ()
  | some goods =>
    if goods.isEmpty then Except.ok none
    else
      let available := toAvailable level goods
      if available.isEmpty then Except.ok none
      else
        let preferred :=
          if cfg.preferredSeedId ≠ 0 then
            available.find? (fun x => x.seedId = cfg.preferredSeedId)
          else none
        match preferred with
        | some p => Except.ok (some p)
        | none => Except.ok (selectSeedTail cfg level rec available)

/-- `unlockLand`: one unlock request per id, each in its own try/catch, so a
failure never stops the loop. Returns (successCount, successIds, failedIds)
and the call trace. -/
def unlockLand (ok : Nat → Bool) : List Nat → (Nat × List Nat × List Nat) × List Call
  | [] => ((0, [], []), [])
  | id :: rest =>
    let r := unlockLand ok rest
    if ok id then
      ((r.1.1 + 1, id :: r.1.2.1, r.1.2.2), Call.unlockOne id :: r.2)
    else
      ((r.1.1, r.1.2.1, id :: r.1.2.2), Call.unlockOne id :: r.2)

/-- `upgradeLand`: same one-at-a-time contract as `unlockLand`. -/
def upgradeLand (ok : Nat → Bool) : List Nat → (Nat × List Nat × List Nat) × List Call
  | [] => ((0, [], []), [])
  | id :: rest =>
    let r := upgradeLand ok rest
    if ok id then
      ((r.1.1 + 1, id :: r.1.2.1, r.1.2.2), Call.upgradeOne id :: r.2)
    else
      ((r.1.1, r.1.2.1, id :: r.1.2.2), Call.upgradeOne id :: r.2)

/-- `plantSeeds`: one plant request per land, each in its own try/catch, so
a failure never stops the loop; returns the number of successes. -/
def plantSeeds (ok : Nat → Bool) (seedId : Nat) : List Nat → Nat × List Call
  | [] => (0, [])
  | id :: rest =>
    let r := plantSeeds ok seedId rest
    ((if ok id then 1 else 0) + r.1, Call.plantOne seedId id :: r.2)

/-- The normal fertilizer item id. -/
def NORMAL_FERTILIZER_ID : Nat := 1011

/-- `fertilize`: one request per land; a failure breaks the loop (the
failing request was still issued). Returns the success count. -/
def fertilize (ok : Nat → Bool) (fertilizerId : Nat) : List Nat → Nat × List Call
  | [] => (0, [])
  | id :: rest =>
    if ok id then
      let r := fertilize ok fertilizerId rest
      (r.1 + 1, Call.fertilizeOne id fertilizerId :: r.2)
    else (0, [Call.fertilizeOne id fertilizerId])

/-- One item of a `BuyGoodsReply` (`get_items` / `cost_items`). -/
structure BuyItem where
  id : Nat
  count : Int
deriving Repr, DecidableEq

/-- The fields of `BuyGoodsReply` the source reads. -/
structure BuyReply where
  get_items : List BuyItem
  cost_items : List BuyItem
deriving Repr, DecidableEq

/-- Outcomes of the remote calls of one cycle. `none` models a call that
throws; per-id functions give per-item outcomes. -/
structure Oracle where
  allLands : Option (List Land)
  weedOutOk : Bool
  insecticideOk : Bool
  waterOk : Bool
  harvestOk : Bool
  unlockOk : Nat → Bool
  upgradeOk : Nat → Bool
  removeOk : Bool
  shopReply : Option (List GoodsEntry)
  recommendation : Option (List Nat)
  buyReply : Option BuyReply
  plantOk : Nat → Bool
  fertOk : Nat → Bool

/-- The seed shop id. -/
def SEED_SHOP_ID : Nat := 2

/-- The final planting list of `autoPlantEmptyLands`: the dead residue is
appended to the empties (`landsToPlant.push(...deadLandIds)`), and the list
is shrunk to the affordable count (`slice(0, canBuy)`) when the total cost
exceeds the stored gold. -/
def finalPlantList (bs : SeedChoice) (gold : Int) (dead empty : List Nat) :
    List Nat :=
  let lands1 := if 0 < dead.length then empty ++ dead else empty
  if (bs.price : Int) * lands1.length > gold then
    lands1.take (gold.fdiv (bs.price : Int)).toNat
  else lands1

/-- The prefix handed to the amendment loop:
`landsToPlant.slice(0, planted)` — the first `planted` ids of the planting
list, `planted` being the count of successful plant calls. -/
def plantedPrefix (o : Oracle) (bs : SeedChoice) (gold : Int)
    (dead empty : List Nat) : List Nat :=
  let final := finalPlantList bs gold dead empty
  let planted := (final.filter o.plantOk).length
  if 0 < planted then final.take planted else []

/-- The seed id actually planted: the id of the first purchased item when
positive, else the chosen seed id. -/
def actualSeedIdOf (reply : BuyReply) (bs : SeedChoice) : Nat :=
  match reply.get_items with
  | [] => bs.seedId
  | item :: _ => if item.id > 0 then item.id else bs.seedId

/-- `autoPlantEmptyLands`: batched residue removal (planting proceeds even
when it fails), seed selection, affordability shrink, batched purchase,
per-item planting, per-item fertilizing. Takes and returns the session
gold, and returns the trace of issued calls. `unlockedLandCount` only feeds
the external recommendation, whose outcome is already the oracle's. -/
def autoPlantEmptyLands (cfg : Config) (o : Oracle) (level : Nat) (gold : Int)
    (deadLandIds emptyLandIds : List Nat) (unlockedLandCount : Nat) :
    Int × List Call :=
  let _ := unlockedLandCount
  let removeTrace :=
    if 0 < deadLandIds.length then [Call.removePlant deadLandIds] else []
  let landsToPlant :=
    if 0 < deadLandIds.length then emptyLandIds ++ deadLandIds
    else emptyLandIds
  if landsToPlant.length = 0 then (gold, removeTrace)
  else
    let shopTrace := [Call.getShopInfo SEED_SHOP_ID]
    match findBestSeed cfg level o.shopReply o.recommendation with
    | Except.error _ => (gold, removeTrace ++ shopTrace)
    | Except.ok none => (gold, removeTrace ++ shopTrace)
    | Except.ok (some bestSeed) =>
      if (bestSeed.price : Int) * landsToPlant.length > gold ∧
          gold.fdiv (bestSeed.price : Int) ≤ 0 then
        (gold, removeTrace ++ shopTrace)
      else
        let landsToPlant := finalPlantList bestSeed gold deadLandIds emptyLandIds
        let buyCall :=
          Call.buyGoods bestSeed.goodsId landsToPlant.length bestSeed.price
        match o.buyReply with
        | none => (gold, removeTrace ++ shopTrace ++ [buyCall])
        | some reply =>
          let actualSeedId := actualSeedIdOf reply bestSeed
          let gold :=
            gold - reply.cost_items.foldl (fun a it => a + it.count) 0
          let planted := plantSeeds o.plantOk actualSeedId landsToPlant
          let plantedLands :=
            if 0 < planted.1 then landsToPlant.take planted.1 else []
          let fertTrace :=
            if 0 < plantedLands.length then
              (fertilize o.fertOk NORMAL_FERTILIZER_ID plantedLands).2
            else []
          (gold, removeTrace ++ shopTrace ++ [buyCall] ++ planted.2 ++ fertTrace)

/-- The per-tier counters of `getLandTypeCounts`, one loop step. -/
structure LandStats where
  total : Nat
  red : Nat
  black : Nat
  gold : Nat
  upgradeCount : Nat
  unlockCount : Nat
deriving Repr, DecidableEq

/-- One iteration of the `getLandTypeCounts` loop. -/
def landTypeStep (s : LandStats) (land : Land) : LandStats :=
  let s := { s with total := s.total + 1 }
  let s :=
    if land.could_unlock && !land.unlocked then
      { s with unlockCount := s.unlockCount + 1 }
    else s
  if !land.unlocked then s
  else
    let s :=
      if land.level = 2 then { s with red := s.red + 1 }
      else if land.level = 3 then { s with black := s.black + 1 }
      else if land.level = 4 then { s with gold := s.gold + 1 }
      else s
    if land.could_upgrade then { s with upgradeCount := s.upgradeCount + 1 }
    else s

/-- `getLandTypeCounts`: tier/eligibility tallies of a snapshot. -/
def getLandTypeCounts (lands : List Land) : LandStats :=
  lands.foldl landTypeStep ⟨0, 0, 0, 0, 0, 0⟩

/-- The engine state surrounding one `checkFarm` cycle: the re-entrancy
flag, the two module-level cooldown maps, the cached land stats and the
session fields the cycle reads or writes. -/
structure FarmState where
  isCheckingFarm : Bool
  upgradeRetryCooldown : CooldownMap
  unlockRetryCooldown : CooldownMap
  lastLandStats : Option LandStats
  gid : Nat
  level : Nat
  gold : Int

/-- The clock readings of one cycle: the estimated server time used by the
classifier, and the four successive `Date.now()` readings of the unlock and
upgrade sections. -/
structure CycleTimes where
  nowSec : Int
  unlockNowMs : Int
  unlockFailMs : Int
  upgradeNowMs : Int
  upgradeFailMs : Int
deriving Repr, DecidableEq

/-- The batch-maintenance calls of `checkFarm`, pushed synchronously in
source order (weed-out, insecticide, watering, each only when its category
is non-empty) and awaited together before the harvest step. -/
def batchMaintenanceTrace (status : AnalyzeResult) : List Call :=
  (if status.needWeed.length > 0 then [Call.weedOut status.needWeed] else []) ++
    (if status.needBug.length > 0 then [Call.insecticide status.needBug] else []) ++
    (if status.needWater.length > 0 then [Call.waterLand status.needWater] else [])

/-- The harvest step of `checkFarm`: one batched call when anything is
harvestable; on success the harvested ids are remembered and their
upgrade-cooldown entries deleted (the source's for-loop of `delete`). -/
def harvestPhase (harvestable : List Nat) (ok : Bool) (upg : CooldownMap) :
    (List Nat × CooldownMap) × List Call :=
  if harvestable.length > 0 then
    if ok then
      ((harvestable, harvestable.foldl CooldownMap.del upg),
        [Call.harvest harvestable])
    else (([], upg), [Call.harvest harvestable])
  else (([], upg), [])

/-- The unlock section of `checkFarm`: gated by the feature flag, filtered
by the cooldown map, then per-item unlock; failures are recorded at the
post-call clock reading, successes deleted. -/
def unlockPhase (cfg : Config) (o : Oracle) (t : CycleTimes)
    (eligibleForUnlock : List Nat) (unl : CooldownMap) :
    CooldownMap × List Call :=
  if cfg.autoExpandLand && eligibleForUnlock.length > 0 then
    let toUnlock := eligibleForUnlock.filter (cooldownEligible unl t.unlockNowMs)
    if toUnlock.length > 0 then
      let r := unlockLand o.unlockOk toUnlock
      let unl := r.1.2.2.foldl (fun m id => m.set id t.unlockFailMs) unl
      let unl := r.1.2.1.foldl CooldownMap.del unl
      (unl, r.2)
    else (unl, [])
  else (unl, [])

/-- The upgrade section of `checkFarm`: same contract as the unlock
section, and additionally exposes the ids that failed upgrade this cycle
(consumed by the replant pipeline). -/
def upgradePhase (cfg : Config) (o : Oracle) (t : CycleTimes)
    (eligibleForUpgrade : List Nat) (upg : CooldownMap) :
    (CooldownMap × List Nat) × List Call :=
  if cfg.autoUpgradeRedLand && eligibleForUpgrade.length > 0 then
    let toUpgrade := eligibleForUpgrade.filter (cooldownEligible upg t.upgradeNowMs)
    if toUpgrade.length > 0 then
      let r := upgradeLand o.upgradeOk toUpgrade
      let upg := r.1.2.2.foldl (fun m id => m.set id t.upgradeFailMs) upg
      let upg := r.1.2.1.foldl CooldownMap.del upg
      ((upg, r.1.2.2), r.2)
    else ((upg, []), [])
  else ((upg, []), [])

/-- `checkFarm`'s removal set: dead plots, plus plots harvested this cycle
that did not fail upgrade this cycle. -/
def allDeadLandsOf (status : AnalyzeResult)
    (harvestedLandIds failedUpgradeIds : List Nat) : List Nat :=
  status.dead ++
    harvestedLandIds.filter (fun id => !failedUpgradeIds.contains id)

/-- `checkFarm`'s direct-seeding set: empty plots that are not upgrade
candidates. -/
def allEmptyLandsOf (status : AnalyzeResult) : List Nat :=
  status.empty.filter (fun id => !status.eligibleForUpgrade.contains id)

/-- One `checkFarm` cycle: re-entrancy guard, snapshot fetch,
classification, then the five action phases, the guard being released on
every path that acquired it (including the catch path when the snapshot
fetch throws). Returns the final engine state and the trace of issued
remote calls. -/
def checkFarm (cfg : Config) (o : Oracle) (t : CycleTimes) (st : FarmState) :
    FarmState × List Call :=
  if st.isCheckingFarm || st.gid = 0 then (st, [])
  else
    match o.allLands with
    | none => ({ st with isCheckingFarm := false }, [Call.getAllLands])
    | some lands =>
      if lands.length = 0 then
        ({ st with isCheckingFarm := false }, [Call.getAllLands])
      else
        let landStats := getLandTypeCounts lands
        let status := analyzeLands lands t.nowSec
        let unlockedLandCount := (lands.filter (·.unlocked)).length
        let maint := batchMaintenanceTrace status
        let harv := harvestPhase status.harvestable o.harvestOk
          st.upgradeRetryCooldown
        let unlock := unlockPhase cfg o t status.eligibleForUnlock
          st.unlockRetryCooldown
        let upgrade := upgradePhase cfg o t status.eligibleForUpgrade harv.1.2
        let allDead := allDeadLandsOf status harv.1.1 upgrade.1.2
        let allEmpty := allEmptyLandsOf status
        let plant :=
          if allDead.length > 0 || allEmpty.length > 0 then
            autoPlantEmptyLands cfg o st.level st.gold allDead allEmpty
              unlockedLandCount
          else (st.gold, [])
        ({ st with isCheckingFarm := false,
                   upgradeRetryCooldown := upgrade.1.1,
                   unlockRetryCooldown := unlock.1,
                   lastLandStats := some landStats,
                   gold := plant.1 },
          Call.getAllLands :: (maint ++ harv.2 ++ unlock.2 ++ upgrade.2 ++ plant.2))

/-- A sample seed-shop catalog with a single unlocked unconditioned
entry. -/
def sampleGoods : List GoodsEntry :=
  [⟨101, 20002, 10, true, [], 0, 0⟩]

/-- A sample oracle over the four-plot snapshot where every remote call
succeeds. -/
def sampleOracle : Oracle :=
  ⟨some sampleLands, true, true, true, true, fun _ => true, fun _ => true,
    true, some sampleGoods, none, some ⟨[], []⟩, fun _ => true, fun _ => true⟩

/-- Sample clock readings for one cycle. -/
def sampleTimes : CycleTimes :=
  ⟨100, 1000000, 1000100, 1000200, 1000300⟩

/-- A sample engine state with the in-flight guard held. -/
def sampleBusyState : FarmState :=
  ⟨true, CooldownMap.empty, CooldownMap.empty, none, 5, 10, 1000⟩

/-- The sample engine state with the in-flight guard released. -/
def sampleIdleState : FarmState :=
  { sampleBusyState with isCheckingFarm := false }

/-- Recognizer for plant calls in a trace. -/
def isPlantCall : Call → Bool
  | .plantOne _ _ => true
  | _ => false

/-- Recognizer for fertilize (soil-amendment) calls in a trace. -/
def isFertCall : Call → Bool
  | .fertilizeOne _ _ => true
  | _ => false

/-- A configuration with every optional feature off. -/
def cfgC6 : Config := ⟨false, false, 0, false⟩

/-- An oracle where planting succeeds only on plot 2 and everything else
succeeds. -/
def oC6 : Oracle :=
  ⟨none, true, true, true, true, fun _ => true, fun _ => true, true,
    some sampleGoods, none, some ⟨[], []⟩, fun id => id == 2, fun _ => true⟩

/-- A two-entry catalog: a level-5 seed priced 30 and a level-8 seed
priced 20, both unlocked and unlimited. -/
def c7Goods : List GoodsEntry :=
  [⟨201, 20005, 30, true, [⟨1, 5⟩], 0, 0⟩,
   ⟨202, 20012, 20, true, [⟨1, 8⟩], 0, 0⟩]

/-- The phase number of a call in the orchestrator's fixed sequence:
snapshot fetch, batch maintenance, harvest, unlock, upgrade, replant
pipeline. -/
def callPhase : Call → Nat
  | .getAllLands => 0
  | .weedOut _ => 1
  | .insecticide _ => 1
  | .waterLand _ => 1
  | .harvest _ => 2
  | .unlockOne _ => 3
  | .upgradeOne _ => 4
  | .removePlant _ => 5
  | .getShopInfo _ => 5
  | .buyGoods _ _ _ => 5
  | .plantOne _ _ => 5
  | .fertilizeOne _ _ => 5

/-- Recognizer for weed-out calls. -/
def isWeedCall : Call → Bool
  | .weedOut _ => true
  | _ => false

/-- Recognizer for insecticide calls. -/
def isBugCall : Call → Bool
  | .insecticide _ => true
  | _ => false

/-- Recognizer for watering calls. -/
def isWaterCall : Call → Bool
  | .waterLand _ => true
  | _ => false

/-- Recognizer for harvest calls. -/
def isHarvestCall : Call → Bool
  | .harvest _ => true
  | _ => false

/-- Recognizer for unlock calls. -/
def isUnlockCall : Call → Bool
  | .unlockOne _ => true
  | _ => false

/-- Recognizer for upgrade calls. -/
def isUpgradeCall : Call → Bool
  | .upgradeOne _ => true
  | _ => false

/-- Recognizer for batched-removal calls. -/
def isRemovePlantCall : Call → Bool
  | .removePlant _ => true
  | _ => false

/-- The replant segment of a cycle's trace: the pipeline's calls when
either replant set is non-empty, nothing otherwise. -/
def plantSegOf (cfg : Config) (o : Oracle) (t : CycleTimes) (st : FarmState)
    (lands : List Land) : List Call :=
  (if (allDeadLandsOf (analyzeLands lands t.nowSec)
        (harvestPhase (analyzeLands lands t.nowSec).harvestable o.harvestOk
          st.upgradeRetryCooldown).1.1
        (upgradePhase cfg o t (analyzeLands lands t.nowSec).eligibleForUpgrade
          (harvestPhase (analyzeLands lands t.nowSec).harvestable o.harvestOk
            st.upgradeRetryCooldown).1.2).1.2).length > 0
      || (allEmptyLandsOf (analyzeLands lands t.nowSec)).length > 0 then
    autoPlantEmptyLands cfg o st.level st.gold
      (allDeadLandsOf (analyzeLands lands t.nowSec)
        (harvestPhase (analyzeLands lands t.nowSec).harvestable o.harvestOk
          st.upgradeRetryCooldown).1.1
        (upgradePhase cfg o t (analyzeLands lands t.nowSec).eligibleForUpgrade
          (harvestPhase (analyzeLands lands t.nowSec).harvestable o.harvestOk
            st.upgradeRetryCooldown).1.2).1.2)
      (allEmptyLandsOf (analyzeLands lands t.nowSec))
      (lands.filter (·.unlocked)).length
  else (st.gold, [])).2

/-- A one-plot snapshot whose plot is simultaneously dead and an upgrade
candidate. -/
def landsC3 : List Land :=
  [⟨1, true, false, true, 2,
    some ⟨11, "d", [⟨PlantPhase.DEAD, 10, 0, 0, 0⟩], 0, [], []⟩⟩]

/-- Auto-upgrade on, auto-unlock off. -/
def cfgC3 : Config := ⟨false, true, 0, false⟩

/-- An oracle for the C3 scenario where every upgrade request fails and
everything else succeeds. -/
def oC3 : Oracle :=
  ⟨some landsC3, true, true, true, true, fun _ => true, fun _ => false, true,
    some sampleGoods, none, some ⟨[], []⟩, fun _ => true, fun _ => true⟩

/-- An idle engine state for the C3 scenario. -/
def stC3 : FarmState :=
  ⟨false, CooldownMap.empty, CooldownMap.empty, none, 5, 10, 1000⟩

/-- The classification of the C3 snapshot. -/
def c3status : AnalyzeResult := analyzeLands landsC3 sampleTimes.nowSec

/-- The ids harvested in the C3 cycle (none). -/
def c3harvested : List Nat :=
  (harvestPhase c3status.harvestable oC3.harvestOk
    stC3.upgradeRetryCooldown).1.1

/-- The ids that failed upgrade in the C3 cycle (plot 1). -/
def c3failed : List Nat :=
  (upgradePhase cfgC3 oC3 sampleTimes c3status.eligibleForUpgrade
    (harvestPhase c3status.harvestable oC3.harvestOk
      stC3.upgradeRetryCooldown).1.2).1.2

/-- A backward scan (`find?` on the reversed list) finds the last element
satisfying the predicate, i.e. the last element of the filtered list. -/
theorem find?_reverse_eq_getLast?_filter (l : List α) (p : α → Bool) :
    l.reverse.find? p = (l.filter p).getLast? := by
  induction l using List.reverseRecOn with
  | nil => simp
  | append_singleton l a ih =>
      rw [List.reverse_append, List.reverse_singleton, List.filter_append]
      by_cases h : p a
      · simp [List.find?_cons, h, List.getLast?_concat]
      · simp only [List.singleton_append, List.find?_cons,
          Bool.of_not_eq_true h, ih]
        simp [List.filter, h]

/-- C2: `resolveCurrentPhase` (`getCurrentPhase`) returns null on an empty
phase list; otherwise it returns the last phase (scanning from the end)
whose normalized `begin_time` is strictly positive and at most `nowSec`,
and if no phase qualifies it returns the first phase of the list. -/
theorem c2_getCurrentPhase_contract (phases : List Phase) (nowSec : Int) :
    getCurrentPhase phases nowSec =
      ((phases.filter (fun p => phaseStarted p nowSec)).getLast? <|>
        phases.head?) := by
  unfold getCurrentPhase
  rw [find?_reverse_eq_getLast?_filter]
  by_cases h : phases.isEmpty
  · have : phases = [] := List.isEmpty_iff.mp h
    subst this
    simp
  · simp only [h, if_false]
    cases (phases.filter (fun p => phaseStarted p nowSec)).getLast? <;> rfl

/-- C8: the phase resolver is a pure function of the phase list and the
current server time: two invocations whose clock state and local time
project to the same server time agree, regardless of the log-only `debug`
and `landLabel` arguments and of any other state. -/
theorem c8_getCurrentPhase_pure (phases : List Phase)
    (d₁ d₂ : Bool) (s₁ s₂ : String) (cs₁ cs₂ : ClockState) (t₁ t₂ : Int)
    (h : getServerTimeSec cs₁ t₁ = getServerTimeSec cs₂ t₂) :
    getCurrentPhaseJs phases d₁ s₁ cs₁ t₁ =
      getCurrentPhaseJs phases d₂ s₂ cs₂ t₂ := by
  unfold getCurrentPhaseJs
  rw [h]

/-- Witness for C8 at concrete inputs: a synced clock and an unsynced clock
that project to the same server second give the same resolved phase. -/
theorem c8_getCurrentPhase_pure_witness :
    getCurrentPhaseJs [⟨PlantPhase.GROWING, 50, 0, 0, 0⟩] true "a"
        ⟨100000, 40000⟩ 41000 =
      getCurrentPhaseJs [⟨PlantPhase.GROWING, 50, 0, 0, 0⟩] false "b"
        ⟨0, 0⟩ 101999 :=
  c8_getCurrentPhase_pure _ true false "a" "b" ⟨100000, 40000⟩ ⟨0, 0⟩
    41000 101999 (by decide)

/-- A non-empty phase list always resolves to some phase. -/
theorem getCurrentPhase_ne_none (phases : List Phase) (nowSec : Int)
    (h : ¬ phases = []) : getCurrentPhase phases nowSec ≠ none := by
  unfold getCurrentPhase
  have hne : phases.isEmpty = false := by
    cases phases with
    | nil => exact absurd rfl h
    | cons a as => rfl
  rw [hne]
  simp only [Bool.false_eq_true, if_false]
  cases hf : phases.reverse.find? (fun p => phaseStarted p nowSec) with
  | some p => simp
  | none =>
      cases phases with
      | nil => exact absurd rfl h
      | cons a as => simp

/-- Each loop iteration of `analyzeLands` adds an unlocked land's id to
exactly one primary bucket. -/
theorem primaryM_analyzeStep_unlocked (now : Int) (r : AnalyzeResult)
    (land : Land) (hu : land.unlocked = true) :
    primaryM (analyzeStep now r land) = primaryM r + {land.id} := by
  simp only [analyzeStep, hu, Bool.not_true, Bool.and_false, Bool.and_true,
    Bool.false_eq_true, if_false]
  repeat' split
  all_goals first
    | (simp only [primaryM, ← Multiset.coe_add, Multiset.coe_singleton]; abel;
        done)
    | (exfalso; simp_all [landIsEmpty])

/-- A locked land touches no primary bucket. -/
theorem primaryM_analyzeStep_locked (now : Int) (r : AnalyzeResult)
    (land : Land) (hu : land.unlocked = false) :
    primaryM (analyzeStep now r land) = primaryM r := by
  simp only [analyzeStep, hu, Bool.not_false, Bool.and_true, if_true,
    Bool.true_eq_false, Bool.false_eq_true, if_false]
  split <;> rfl

/-- Over the whole fold, the primary buckets accumulate exactly the ids of
the unlocked lands, in multiset terms. -/
theorem primaryM_foldl (now : Int) (lands : List Land) (r : AnalyzeResult) :
    primaryM (lands.foldl (analyzeStep now) r) =
      primaryM r + ((lands.filter (·.unlocked)).map (·.id) : Multiset Nat) := by
  induction lands generalizing r with
  | nil => simp
  | cons l ls ih =>
      rw [List.foldl_cons, ih]
      by_cases hu : l.unlocked
      · rw [primaryM_analyzeStep_unlocked now r l hu]
        simp only [List.filter_cons, hu, if_true, List.map_cons,
          ← Multiset.cons_coe, ← Multiset.singleton_add]
        abel
      · rw [primaryM_analyzeStep_locked now r l (Bool.eq_false_iff.mpr hu)]
        simp [List.filter_cons, hu]

set_option maxHeartbeats 1000000 in
theorem needsInGrowing_analyzeStep (now : Int) (r : AnalyzeResult)
    (land : Land) (h : NeedsInGrowing r) :
    NeedsInGrowing (analyzeStep now r land) := by
  obtain ⟨hW, hG, hB⟩ := h
  unfold analyzeStep NeedsInGrowing
  repeat' split
  all_goals
    refine ⟨fun i hi => ?_, fun i hi => ?_, fun i hi => ?_⟩ <;>
      simp only [List.mem_append, List.mem_singleton] at hi ⊢ <;>
      aesop

theorem needsInGrowing_foldl (now : Int) (lands : List Land)
    (r : AnalyzeResult) (h : NeedsInGrowing r) :
    NeedsInGrowing (lands.foldl (analyzeStep now) r) := by
  induction lands generalizing r with
  | nil => exact h
  | cons l ls ih => exact ih _ (needsInGrowing_analyzeStep now r l h)

/-- C9: `analyzeLands` places each unlocked plot in exactly one of the four
primary categories: the concatenation of {dead, harvestable, empty, growing}
is a permutation of the unlocked plots' ids (so, for snapshots whose
unlocked plot ids are distinct, the four sets are pairwise disjoint and
cover each unlocked plot exactly once), and the water/weed/pest need sets
contain only growing plots. -/
theorem c9_analyzeLands_partition (lands : List Land) (nowSec : Int)
    (hnd : ((lands.filter (·.unlocked)).map (·.id)).Nodup) :
    ((analyzeLands lands nowSec).dead ++ (analyzeLands lands nowSec).harvestable
        ++ (analyzeLands lands nowSec).empty
        ++ (analyzeLands lands nowSec).growing).Perm
      ((lands.filter (·.unlocked)).map (·.id))
    ∧ (∀ i ∈ (analyzeLands lands nowSec).needWater,
        i ∈ (analyzeLands lands nowSec).growing)
    ∧ (∀ i ∈ (analyzeLands lands nowSec).needWeed,
        i ∈ (analyzeLands lands nowSec).growing)
    ∧ (∀ i ∈ (analyzeLands lands nowSec).needBug,
        i ∈ (analyzeLands lands nowSec).growing)
    ∧ (analyzeLands lands nowSec).dead.Disjoint
        (analyzeLands lands nowSec).harvestable
    ∧ (analyzeLands lands nowSec).dead.Disjoint (analyzeLands lands nowSec).empty
    ∧ (analyzeLands lands nowSec).dead.Disjoint
        (analyzeLands lands nowSec).growing
    ∧ (analyzeLands lands nowSec).harvestable.Disjoint
        (analyzeLands lands nowSec).empty
    ∧ (analyzeLands lands nowSec).harvestable.Disjoint
        (analyzeLands lands nowSec).growing
    ∧ (analyzeLands lands nowSec).empty.Disjoint
        (analyzeLands lands nowSec).growing := by
  have hM := primaryM_foldl nowSec lands AnalyzeResult.init
  rw [show primaryM AnalyzeResult.init = 0 from rfl, zero_add] at hM
  rw [primaryM] at hM
  simp only [Multiset.coe_add] at hM
  have hperm := Multiset.coe_eq_coe.mp hM
  have hneeds := needsInGrowing_foldl nowSec lands AnalyzeResult.init
    (by simp [NeedsInGrowing, AnalyzeResult.init])
  obtain ⟨hW, hG, hB⟩ := hneeds
  have hlnd : ((analyzeLands lands nowSec).dead
      ++ (analyzeLands lands nowSec).harvestable
      ++ (analyzeLands lands nowSec).empty
      ++ (analyzeLands lands nowSec).growing).Nodup :=
    hperm.nodup_iff.mpr hnd
  simp only [List.nodup_append, List.disjoint_append_right,
    List.disjoint_append_left] at hlnd
  refine ⟨hperm, hW, hG, hB, ?_, ?_, ?_, ?_, ?_, ?_⟩ <;> tauto

/-- Witness for C9 on the four-plot sample snapshot. -/
theorem c9_analyzeLands_partition_witness :
    ((sampleLands.filter (·.unlocked)).map (·.id)).Nodup
    ∧ (((analyzeLands sampleLands 100).dead
          ++ (analyzeLands sampleLands 100).harvestable
          ++ (analyzeLands sampleLands 100).empty
          ++ (analyzeLands sampleLands 100).growing).Perm
        ((sampleLands.filter (·.unlocked)).map (·.id))
      ∧ (∀ i ∈ (analyzeLands sampleLands 100).needWater,
          i ∈ (analyzeLands sampleLands 100).growing)
      ∧ (∀ i ∈ (analyzeLands sampleLands 100).needWeed,
          i ∈ (analyzeLands sampleLands 100).growing)
      ∧ (∀ i ∈ (analyzeLands sampleLands 100).needBug,
          i ∈ (analyzeLands sampleLands 100).growing)
      ∧ (analyzeLands sampleLands 100).dead.Disjoint
          (analyzeLands sampleLands 100).harvestable
      ∧ (analyzeLands sampleLands 100).dead.Disjoint
          (analyzeLands sampleLands 100).empty
      ∧ (analyzeLands sampleLands 100).dead.Disjoint
          (analyzeLands sampleLands 100).growing
      ∧ (analyzeLands sampleLands 100).harvestable.Disjoint
          (analyzeLands sampleLands 100).empty
      ∧ (analyzeLands sampleLands 100).harvestable.Disjoint
          (analyzeLands sampleLands 100).growing
      ∧ (analyzeLands sampleLands 100).empty.Disjoint
          (analyzeLands sampleLands 100).growing) :=
  ⟨by decide, c9_analyzeLands_partition sampleLands 100 (by decide)⟩

/-- C4 counterexample: a failure recorded with timestamp 0 leaves an entry
in the upgrade cooldown map, yet 9 minutes later — less than the 10-minute
retry interval — the plot already passes the eligibility filter, because
the source's `!t` test treats the falsy recorded value 0 as "no failure".
The claim's "ineligible at t + 9 minutes" therefore fails at t = 0. -/
theorem c4_counterexample :
    isEligible
        (recordFailure ⟨CooldownMap.empty, CooldownMap.empty⟩ OpKind.upgrade 7 0)
        OpKind.upgrade 7 (9 * 60 * 1000) = true
    ∧ (recordFailure ⟨CooldownMap.empty, CooldownMap.empty⟩ OpKind.upgrade 7 0).get
        OpKind.upgrade 7 = some 0
    ∧ ¬ (9 * 60 * 1000 - (0 : Int) ≥ EXPAND_RETRY_INTERVAL_MS) := by
  refine ⟨rfl, rfl, by decide⟩

/-- C4 (amended): for either operation kind, a plot with no recorded entry
is eligible; a plot whose recorded failure timestamp is positive (as every
`Date.now()` reading is) is eligible exactly when at least 10 minutes have
elapsed — in particular, after `recordFailure` at a positive time t it is
ineligible at t + 9 min and eligible again at t + 11 min — and deleting the
entry makes it eligible immediately. (Amendment forced by the
counterexample: a recorded timestamp of exactly 0 is falsy in the source's
`!t` test and counts as eligible.) -/
theorem c4_cooldown_eligibility (s : CooldownStore) (k : OpKind) (id : Nat)
    (nowMs t : Int) (hpos : 0 < t) :
    (s.get k id = none → isEligible s k id nowMs = true)
    ∧ (s.get k id = some t →
        (isEligible s k id nowMs = true ↔
          nowMs - t ≥ EXPAND_RETRY_INTERVAL_MS))
    ∧ isEligible (recordFailure s k id t) k id (t + 9 * 60 * 1000) = false
    ∧ isEligible (recordFailure s k id t) k id (t + 11 * 60 * 1000) = true
    ∧ isEligible (s.clear k id) k id nowMs = true := by
  cases k <;>
    refine ⟨fun h => ?_, fun h => ?_, ?_, ?_, ?_⟩ <;>
      simp_all [isEligible, cooldownEligible, CooldownStore.get, recordFailure,
        CooldownStore.clear, CooldownMap.set, CooldownMap.del,
        EXPAND_RETRY_INTERVAL_MS] <;>
      omega

/-- Witness for C4 (amended) at kind = upgrade, id = 7, now = 5, t = 3. -/
theorem c4_cooldown_eligibility_witness :
    (0 : Int) < 3
    ∧ (((⟨CooldownMap.empty, CooldownMap.empty⟩ : CooldownStore).get
          OpKind.upgrade 7 = none →
        isEligible ⟨CooldownMap.empty, CooldownMap.empty⟩ OpKind.upgrade 7 5 =
          true)
      ∧ ((⟨CooldownMap.empty, CooldownMap.empty⟩ : CooldownStore).get
            OpKind.upgrade 7 = some 3 →
          (isEligible ⟨CooldownMap.empty, CooldownMap.empty⟩ OpKind.upgrade 7 5 =
              true ↔ (5 : Int) - 3 ≥ EXPAND_RETRY_INTERVAL_MS))
      ∧ isEligible
          (recordFailure ⟨CooldownMap.empty, CooldownMap.empty⟩ OpKind.upgrade 7 3)
          OpKind.upgrade 7 (3 + 9 * 60 * 1000) = false
      ∧ isEligible
          (recordFailure ⟨CooldownMap.empty, CooldownMap.empty⟩ OpKind.upgrade 7 3)
          OpKind.upgrade 7 (3 + 11 * 60 * 1000) = true
      ∧ isEligible
          ((⟨CooldownMap.empty, CooldownMap.empty⟩ : CooldownStore).clear
            OpKind.upgrade 7)
          OpKind.upgrade 7 5 = true) :=
  ⟨by decide,
    c4_cooldown_eligibility ⟨CooldownMap.empty, CooldownMap.empty⟩
      OpKind.upgrade 7 5 3 (by decide)⟩

/-- Deleting a list of keys from a cooldown map removes exactly those
keys. -/
theorem foldl_del_eq (ids : List Nat) (m : CooldownMap) (i : Nat) :
    (ids.foldl CooldownMap.del m) i = if i ∈ ids then none else m i := by
  induction ids generalizing m with
  | nil => simp
  | cons a as ih =>
      rw [List.foldl_cons, ih]
      by_cases h1 : i ∈ as <;> by_cases h2 : i = a <;>
        simp [CooldownMap.del, List.mem_cons, h1, h2]

/-- C5: a successful batched harvest removes exactly the harvested plots'
entries from the upgrade cooldown map — harvested ids become absent,
every other id keeps its entry, and a failed or empty harvest changes
nothing; moreover the unlock-kind map that `checkFarm` ends up with does
not depend on the harvest outcome at all. -/
theorem c5_harvest_clears_upgrade_cooldown (harvestable : List Nat)
    (ok : Bool) (upg : CooldownMap) (cfg : Config) (o : Oracle)
    (t : CycleTimes) (st : FarmState) :
    (ok = true → ∀ id ∈ harvestable,
        (harvestPhase harvestable ok upg).1.2 id = none)
    ∧ (∀ id, id ∉ harvestable →
        (harvestPhase harvestable ok upg).1.2 id = upg id)
    ∧ (ok = false → (harvestPhase harvestable ok upg).1.2 = upg)
    ∧ (checkFarm cfg o t st).1.unlockRetryCooldown =
        (checkFarm cfg { o with harvestOk := !o.harvestOk } t st).1.unlockRetryCooldown := by
  refine ⟨?_, ?_, ?_, ?_⟩
  · intro hok id hid
    simp only [harvestPhase, hok]
    have hlen : harvestable.length > 0 := List.length_pos.mpr
      (List.ne_nil_of_mem hid)
    simp [hlen, foldl_del_eq, hid]
  · intro id hid
    unfold harvestPhase
    split
    · split
      · simp [foldl_del_eq, hid]
      · rfl
    · rfl
  · intro hok
    unfold harvestPhase
    simp only [hok, Bool.false_eq_true, if_false]
    split <;> rfl
  · unfold checkFarm
    split
    · rfl
    · cases o.allLands <;> simp only <;> split <;> rfl

/-- Witness for C5 at a concrete map and cycle: harvesting plots 7 and 9
with an old failure recorded for 7. -/
theorem c5_harvest_clears_upgrade_cooldown_witness :
    (true = true → ∀ id ∈ [7, 9],
        (harvestPhase [7, 9] true ((CooldownMap.empty.set 7 123).set 3 456)).1.2
          id = none)
    ∧ (∀ id, id ∉ [7, 9] →
        (harvestPhase [7, 9] true ((CooldownMap.empty.set 7 123).set 3 456)).1.2
          id = (CooldownMap.empty.set 7 123).set 3 456 id)
    ∧ (true = false →
        (harvestPhase [7, 9] true ((CooldownMap.empty.set 7 123).set 3 456)).1.2 =
          (CooldownMap.empty.set 7 123).set 3 456)
    ∧ (checkFarm ⟨true, true, 0, false⟩ sampleOracle sampleTimes
          sampleIdleState).1.unlockRetryCooldown =
        (checkFarm ⟨true, true, 0, false⟩
          { sampleOracle with harvestOk := !sampleOracle.harvestOk }
          sampleTimes sampleIdleState).1.unlockRetryCooldown :=
  c5_harvest_clears_upgrade_cooldown [7, 9] true
    ((CooldownMap.empty.set 7 123).set 3 456) ⟨true, true, 0, false⟩
    sampleOracle sampleTimes sampleIdleState

/-- `plantSeeds` issues one call per land (failures do not stop the loop)
and counts the successes. -/
theorem plantSeeds_eq (ok : Nat → Bool) (sid : Nat) (l : List Nat) :
    plantSeeds ok sid l =
      ((l.filter ok).length, l.map (Call.plantOne sid)) := by
  induction l with
  | nil => rfl
  | cons id rest ih =>
      by_cases h : ok id <;>
        simp [plantSeeds, ih, List.filter_cons, h, Nat.add_comm]

/-- `fertilize` walks the maximal successful prefix, issues one further
call at the first failure (which breaks the loop), and counts the prefix. -/
theorem fertilize_eq (ok : Nat → Bool) (fid : Nat) (l : List Nat) :
    fertilize ok fid l =
      ((l.takeWhile ok).length,
        (l.takeWhile ok ++
            (l.drop (l.takeWhile ok).length).take 1).map
          (fun id => Call.fertilizeOne id fid)) := by
  induction l with
  | nil => rfl
  | cons id rest ih =>
      by_cases h : ok id
      · simp [fertilize, h, ih, List.takeWhile_cons]
      · simp [fertilize, h, List.takeWhile_cons]

/-- C6 counterexample: replanting plots [1, 2] when the plant call fails on
plot 1 and succeeds on plot 2 gives one plant success, so the source
fertilizes `landsToPlant.slice(0, 1) = [1]` — the id that failed — and
never fertilizes plot 2, the id that succeeded. The amendment step is
therefore not applied to the set of successfully planted ids. -/
theorem c6_counterexample :
    (autoPlantEmptyLands cfgC6 oC6 10 1000 [] [1, 2] 4).2 =
      [Call.getShopInfo 2, Call.buyGoods 101 2 10, Call.plantOne 20002 1,
        Call.plantOne 20002 2, Call.fertilizeOne 1 NORMAL_FERTILIZER_ID]
    ∧ oC6.plantOk 1 = false ∧ oC6.plantOk 2 = true
    ∧ Call.fertilizeOne 2 NORMAL_FERTILIZER_ID ∉
        (autoPlantEmptyLands cfgC6 oC6 10 1000 [] [1, 2] 4).2
    ∧ Call.fertilizeOne 1 NORMAL_FERTILIZER_ID ∈
        (autoPlantEmptyLands cfgC6 oC6 10 1000 [] [1, 2] 4).2 := by
  decide

/-- Plant calls pass the plant-call filter unchanged. -/
theorem filter_isPlant_plantMap (sid : Nat) (l : List Nat) :
    (l.map (Call.plantOne sid)).filter isPlantCall = l.map (Call.plantOne sid) := by
  induction l <;> simp_all [isPlantCall]

/-- Plant calls are not fertilize calls. -/
theorem filter_isFert_plantMap (sid : Nat) (l : List Nat) :
    (l.map (Call.plantOne sid)).filter isFertCall = [] := by
  induction l <;> simp_all [isFertCall]

/-- Fertilize calls are not plant calls. -/
theorem filter_isPlant_fertMap (fid : Nat) (l : List Nat) :
    (l.map (fun id => Call.fertilizeOne id fid)).filter isPlantCall = [] := by
  induction l <;> simp_all [isPlantCall]

/-- Fertilize calls pass the fertilize-call filter unchanged. -/
theorem filter_isFert_fertMap (fid : Nat) (l : List Nat) :
    (l.map (fun id => Call.fertilizeOne id fid)).filter isFertCall =
      l.map (fun id => Call.fertilizeOne id fid) := by
  induction l <;> simp_all [isFertCall]

/-- The full call trace of a replant run that reaches planting: removal
when there is residue, shop query, purchase, one plant call per final land,
then the fertilize loop over the first-planted prefix. -/
theorem autoPlant_trace_eq (cfg : Config) (o : Oracle) (level : Nat)
    (gold : Int) (dead empty : List Nat) (n : Nat) (bs : SeedChoice)
    (reply : BuyReply)
    (h1 : findBestSeed cfg level o.shopReply o.recommendation =
      Except.ok (some bs))
    (h2 : o.buyReply = some reply)
    (h3 : ¬ ((if 0 < dead.length then empty ++ dead else empty).length = 0))
    (h4 : ¬ ((bs.price : Int) *
          ((if 0 < dead.length then empty ++ dead else empty).length) > gold
        ∧ gold.fdiv (bs.price : Int) ≤ 0)) :
    (autoPlantEmptyLands cfg o level gold dead empty n).2 =
      (if 0 < dead.length then [Call.removePlant dead] else []) ++
        [Call.getShopInfo SEED_SHOP_ID] ++
        [Call.buyGoods bs.goodsId (finalPlantList bs gold dead empty).length
          bs.price] ++
        (finalPlantList bs gold dead empty).map
          (Call.plantOne (actualSeedIdOf reply bs)) ++
        (if 0 < (plantedPrefix o bs gold dead empty).length then
            (fertilize o.fertOk NORMAL_FERTILIZER_ID
              (plantedPrefix o bs gold dead empty)).2
          else []) := by
  simp only [autoPlantEmptyLands]
  rw [if_neg h3]
  simp only [h1]
  rw [if_neg h4]
  simp only [h2, plantSeeds_eq, plantedPrefix]

/-- C6 (amended): in a replant run that reaches planting, every id of the
final planting list receives a plant call (a plant failure does not stop
the loop), and the amendment step is applied to the first k ids of that
list — k being the count of successful plant calls, not their identities —
walking them in order and stopping right after the first amendment
failure. -/
theorem c6_fertilize_first_k (cfg : Config) (o : Oracle) (level : Nat)
    (gold : Int) (dead empty : List Nat) (n : Nat) (bs : SeedChoice)
    (reply : BuyReply)
    (h1 : findBestSeed cfg level o.shopReply o.recommendation =
      Except.ok (some bs))
    (h2 : o.buyReply = some reply)
    (h3 : ¬ ((if 0 < dead.length then empty ++ dead else empty).length = 0))
    (h4 : ¬ ((bs.price : Int) *
          ((if 0 < dead.length then empty ++ dead else empty).length) > gold
        ∧ gold.fdiv (bs.price : Int) ≤ 0)) :
    ((autoPlantEmptyLands cfg o level gold dead empty n).2.filter isPlantCall =
        (finalPlantList bs gold dead empty).map
          (Call.plantOne (actualSeedIdOf reply bs)))
    ∧ ((autoPlantEmptyLands cfg o level gold dead empty n).2.filter isFertCall =
        ((plantedPrefix o bs gold dead empty).takeWhile o.fertOk ++
            ((plantedPrefix o bs gold dead empty).drop
              ((plantedPrefix o bs gold dead empty).takeWhile o.fertOk).length).take
              1).map
          (fun id => Call.fertilizeOne id NORMAL_FERTILIZER_ID)) := by
  rw [autoPlant_trace_eq cfg o level gold dead empty n bs reply h1 h2 h3 h4]
  constructor
  · simp only [List.filter_append, filter_isPlant_plantMap,
      filter_isPlant_fertMap]
    have hA : (if 0 < dead.length then [Call.removePlant dead] else []).filter
        isPlantCall = [] := by
      split <;> rfl
    have hE : (if 0 < (plantedPrefix o bs gold dead empty).length then
        (fertilize o.fertOk NORMAL_FERTILIZER_ID
          (plantedPrefix o bs gold dead empty)).2 else []).filter isPlantCall =
        [] := by
      split
      · rw [fertilize_eq]
        exact filter_isPlant_fertMap _ _
      · rfl
    rw [hA, hE]
    simp [isPlantCall]
  · simp only [List.filter_append, filter_isFert_plantMap]
    have hA : (if 0 < dead.length then [Call.removePlant dead] else []).filter
        isFertCall = [] := by
      split <;> rfl
    have hE : (if 0 < (plantedPrefix o bs gold dead empty).length then
        (fertilize o.fertOk NORMAL_FERTILIZER_ID
          (plantedPrefix o bs gold dead empty)).2 else []).filter isFertCall =
        ((plantedPrefix o bs gold dead empty).takeWhile o.fertOk ++
            ((plantedPrefix o bs gold dead empty).drop
              ((plantedPrefix o bs gold dead empty).takeWhile o.fertOk).length).take
              1).map
          (fun id => Call.fertilizeOne id NORMAL_FERTILIZER_ID) := by
      split
      · rw [fertilize_eq]
        exact filter_isFert_fertMap _ _
      · next hlen =>
          have : plantedPrefix o bs gold dead empty = [] := by
            cases hpp : plantedPrefix o bs gold dead empty with
            | nil => rfl
            | cons a as => exact absurd (by simp [hpp]) hlen
          rw [this]
          rfl
    rw [hA, hE]
    simp [isFertCall]

/-- Witness for C6 (amended) on the two-plot scenario of the
counterexample. -/
theorem c6_fertilize_first_k_witness :
    ((autoPlantEmptyLands cfgC6 oC6 10 1000 [] [1, 2] 4).2.filter isPlantCall =
        (finalPlantList ⟨101, 20002, 10, 0⟩ 1000 [] [1, 2]).map
          (Call.plantOne (actualSeedIdOf ⟨[], []⟩ ⟨101, 20002, 10, 0⟩)))
    ∧ ((autoPlantEmptyLands cfgC6 oC6 10 1000 [] [1, 2] 4).2.filter isFertCall =
        ((plantedPrefix oC6 ⟨101, 20002, 10, 0⟩ 1000 [] [1, 2]).takeWhile
              oC6.fertOk ++
            ((plantedPrefix oC6 ⟨101, 20002, 10, 0⟩ 1000 [] [1, 2]).drop
              ((plantedPrefix oC6 ⟨101, 20002, 10, 0⟩ 1000 [] [1, 2]).takeWhile
                oC6.fertOk).length).take 1).map
          (fun id => Call.fertilizeOne id NORMAL_FERTILIZER_ID)) :=
  c6_fertilize_first_k cfgC6 oC6 10 1000 [] [1, 2] 4 ⟨101, 20002, 10, 0⟩
    ⟨[], []⟩ rfl rfl (by decide) (by decide)

/-- The foldl of the stable-sort head stays among the candidates. -/
theorem foldlMin_mem (lt : α → α → Bool) (xs : List α) (x : α) :
    xs.foldl (fun acc e => if lt e acc then e else acc) x ∈ x :: xs := by
  induction xs generalizing x with
  | nil => simp
  | cons e es ih =>
      rw [List.foldl_cons]
      by_cases h : lt e x <;> simp only [h, if_true, if_false, Bool.false_eq_true]
      · have := ih e
        simp only [List.mem_cons] at this ⊢
        tauto
      · have := ih x
        simp only [List.mem_cons] at this ⊢
        tauto

/-- No candidate is strictly below the foldl of the stable-sort head, for
any comparator that is irreflexive, transitive and negatively
transitive. -/
theorem foldlMin_not_lt (lt : α → α → Bool)
    (hirr : ∀ a, lt a a = false)
    (htrans : ∀ a b c, lt a b = true → lt b c = true → lt a c = true)
    (hneg : ∀ a b c, lt a b = false → lt b c = false → lt a c = false)
    (xs : List α) (x : α) :
    ∀ y ∈ x :: xs,
      lt y (xs.foldl (fun acc e => if lt e acc then e else acc) x) = false := by
  induction xs generalizing x with
  | nil =>
      intro y hy
      simp only [List.mem_singleton] at hy
      subst hy
      simpa using hirr y
  | cons e es ih =>
      intro y hy
      rw [List.foldl_cons]
      by_cases h : lt e x <;>
        simp only [h, if_true, if_false, Bool.false_eq_true]
      · rcases List.mem_cons.mp hy with hyx | hy2
        · cases hb : lt y (es.foldl (fun acc f => if lt f acc then f else acc) e) with
          | false => rfl
          | true =>
              exfalso
              rw [hyx] at hb
              have h1 := htrans e x _ h hb
              have h2 := ih e e (List.mem_cons_self e es)
              rw [h1] at h2
              simp at h2
        · exact ih e y hy2
      · rcases List.mem_cons.mp hy with hyx | hy2
        · rw [hyx]
          exact ih x x (List.mem_cons_self x es)
        · rcases List.mem_cons.mp hy2 with hye | hy3
          · rw [hye]
            exact hneg e x _ (by simpa using h)
              (ih x x (List.mem_cons_self x es))
          · exact ih x y (List.mem_cons.mpr (Or.inr hy3))

/-- The stable-sort head is a member of the list. -/
theorem sortHead_mem (lt : α → α → Bool) (l : List α) (x : α)
    (h : sortHead lt l = some x) : x ∈ l := by
  cases l with
  | nil => cases h
  | cons a as =>
      simp only [sortHead] at h
      have hx := Option.some.inj h
      subst hx
      exact foldlMin_mem lt as a

/-- The stable-sort head is minimal for the comparator. -/
theorem sortHead_min (lt : α → α → Bool)
    (hirr : ∀ a, lt a a = false)
    (htrans : ∀ a b c, lt a b = true → lt b c = true → lt a c = true)
    (hneg : ∀ a b c, lt a b = false → lt b c = false → lt a c = false)
    (l : List α) (x : α) (h : sortHead lt l = some x) :
    ∀ y ∈ l, lt y x = false := by
  cases l with
  | nil => cases h
  | cons a as =>
      simp only [sortHead] at h
      have hx := Option.some.inj h
      subst hx
      exact foldlMin_not_lt lt hirr htrans hneg as a

/-- A non-empty list has a stable-sort head. -/
theorem sortHead_isSome (lt : α → α → Bool) (l : List α) (h : l ≠ []) :
    ∃ x, sortHead lt l = some x := by
  cases l with
  | nil => exact absurd rfl h
  | cons a as => exact ⟨_, rfl⟩

theorem levelPriceLt_irr : ∀ a, levelPriceLt a a = false := by
  intro a; simp [levelPriceLt]

theorem levelPriceLt_trans : ∀ a b c, levelPriceLt a b = true →
    levelPriceLt b c = true → levelPriceLt a c = true := by
  intro a b c h1 h2
  simp only [levelPriceLt, Bool.or_eq_true, Bool.and_eq_true,
    decide_eq_true_eq] at h1 h2 ⊢
  omega

theorem levelPriceLt_neg : ∀ a b c, levelPriceLt a b = false →
    levelPriceLt b c = false → levelPriceLt a c = false := by
  intro a b c h1 h2
  simp only [levelPriceLt, Bool.or_eq_false_iff, Bool.and_eq_false_iff,
    decide_eq_false_iff_not] at h1 h2 ⊢
  omega

theorem levelAscLt_irr : ∀ a, levelAscLt a a = false := by
  intro a; simp [levelAscLt]

theorem levelAscLt_trans : ∀ a b c, levelAscLt a b = true →
    levelAscLt b c = true → levelAscLt a c = true := by
  intro a b c h1 h2
  simp only [levelAscLt, decide_eq_true_eq] at h1 h2 ⊢
  omega

theorem levelAscLt_neg : ∀ a b c, levelAscLt a b = false →
    levelAscLt b c = false → levelAscLt a c = false := by
  intro a b c h1 h2
  simp only [levelAscLt, decide_eq_false_iff_not] at h1 h2 ⊢
  omega

theorem levelDescLt_irr : ∀ a, levelDescLt a a = false := by
  intro a; simp [levelDescLt]

theorem levelDescLt_trans : ∀ a b c, levelDescLt a b = true →
    levelDescLt b c = true → levelDescLt a c = true := by
  intro a b c h1 h2
  simp only [levelDescLt, decide_eq_true_eq] at h1 h2 ⊢
  omega

theorem levelDescLt_neg : ∀ a b c, levelDescLt a b = false →
    levelDescLt b c = false → levelDescLt a c = false := by
  intro a b c h1 h2
  simp only [levelDescLt, decide_eq_false_iff_not] at h1 h2 ⊢
  omega

/-- When the conds loop accepts, the resulting level requirement is either
the untouched accumulator or a level the player meets. -/
theorem condCheck_true_le (level : Nat) (conds : List Cond) :
    ∀ acc r, condCheck level conds acc = (true, r) → r = acc ∨ r ≤ level := by
  induction conds with
  | nil =>
      intro acc r h
      simp only [condCheck, Prod.mk.injEq] at h
      left
      exact h.2.symm
  | cons c rest ih =>
      intro acc r h
      simp only [condCheck] at h
      by_cases ht : c.type = 1
      · simp only [ht, if_true] at h
        by_cases hlt : level < c.param
        · simp [hlt] at h
        · simp only [hlt, if_false] at h
          rcases ih _ _ h with h1 | h1
          · right; omega
          · right; exact h1
      · simp only [ht, if_false] at h
        exact ih _ _ h

/-- At player level 0 every available catalog entry has level
requirement 0. -/
theorem toAvailable_level_zero (goods : List GoodsEntry) :
    ∀ e ∈ toAvailable 0 goods, e.requiredLevel = 0 := by
  intro e he
  simp only [toAvailable, List.mem_filterMap] at he
  obtain ⟨g, hg, hsome⟩ := he
  by_cases hu : g.unlocked
  · simp only [hu, Bool.not_true, Bool.false_eq_true, if_false] at hsome
    cases hcc : condCheck 0 g.conds 0 with
    | mk okc req =>
        rw [hcc] at hsome
        cases okc
        · simp at hsome
        · by_cases hl : g.limit_count > 0 && decide (g.bought_num ≥ g.limit_count)
          · simp [hl] at hsome
          · simp only [hl, Bool.false_eq_true, if_false,
              Option.some.injEq] at hsome
            subst hsome
            show req = 0
            rcases condCheck_true_le 0 g.conds 0 req hcc with h0 | h0 <;> omega
  · simp [hu] at hsome

/-- `findRanked` returns a catalog member. -/
theorem findRanked_mem (available : List SeedChoice) (rl : List Nat)
    (x : SeedChoice) (h : findRanked available rl = some x) : x ∈ available := by
  induction rl with
  | nil => cases h
  | cons sid rest ih =>
      simp only [findRanked] at h
      cases hf : available.find? (fun y => y.seedId = sid) with
      | some hit =>
          rw [hf] at h
          have := Option.some.inj h
          subst this
          exact List.mem_of_find?_eq_some hf
      | none =>
          rw [hf] at h
          exact ih h

/-- The static fallback choice is a member of the list. -/
theorem fallbackChoice_mem (level : Nat) (available : List SeedChoice)
    (x : SeedChoice) (h : fallbackChoice level available = some x) :
    x ∈ available := by
  unfold fallbackChoice at h
  split at h <;> exact sortHead_mem _ _ _ h

/-- The static fallback never comes back empty on a non-empty list. -/
theorem fallbackChoice_isSome (level : Nat) (available : List SeedChoice)
    (h : available ≠ []) : ∃ x, fallbackChoice level available = some x := by
  unfold fallbackChoice
  split <;> exact sortHead_isSome _ _ h

/-- Below the level-29 threshold (and at a nonzero level) the static
fallback minimizes the level requirement. -/
theorem fallbackChoice_min (level : Nat) (available : List SeedChoice)
    (x : SeedChoice) (hlev : level ≠ 0) (hle : level ≤ 28)
    (h : fallbackChoice level available = some x) :
    ∀ f ∈ available, x.requiredLevel ≤ f.requiredLevel := by
  unfold fallbackChoice at h
  have hc : (decide (level ≠ 0) && decide (level ≤ 28)) = true := by
    simp [hlev, hle]
  rw [if_pos hc] at h
  intro f hf
  have := sortHead_min levelAscLt levelAscLt_irr levelAscLt_trans
    levelAscLt_neg available x h f hf
  simp only [levelAscLt, decide_eq_false_iff_not] at this
  omega

/-- At or above level 29 (and at the falsy level 0) the static fallback
maximizes the level requirement. -/
theorem fallbackChoice_max (level : Nat) (available : List SeedChoice)
    (x : SeedChoice) (hlev : ¬ (level ≠ 0 ∧ level ≤ 28))
    (h : fallbackChoice level available = some x) :
    ∀ f ∈ available, f.requiredLevel ≤ x.requiredLevel := by
  unfold fallbackChoice at h
  have hc : (decide (level ≠ 0) && decide (level ≤ 28)) = false := by
    rcases Decidable.not_and_iff_or_not.mp hlev with h1 | h1 <;> simp [h1]
  rw [hc] at h
  simp only [Bool.false_eq_true, if_false] at h
  intro f hf
  have := sortHead_min levelDescLt levelDescLt_irr levelDescLt_trans
    levelDescLt_neg available x h f hf
  simp only [levelDescLt, decide_eq_false_iff_not] at this
  omega

/-- The post-pin cascade always yields a member of a non-empty list. -/
theorem selectSeedTail_mem (cfg : Config) (level : Nat)
    (rec : Option (List Nat)) (available : List SeedChoice)
    (hne : available ≠ []) :
    ∃ e, selectSeedTail cfg level rec available = some e ∧ e ∈ available := by
  unfold selectSeedTail
  by_cases hforce : cfg.forceLowestLevelCrop
  · simp only [hforce, if_true]
    obtain ⟨x, hx⟩ := sortHead_isSome levelPriceLt available hne
    exact ⟨x, hx, sortHead_mem _ _ _ hx⟩
  · simp only [hforce, Bool.false_eq_true, if_false]
    cases rec with
    | none =>
        obtain ⟨x, hx⟩ := fallbackChoice_isSome level available hne
        exact ⟨x, hx, fallbackChoice_mem _ _ _ hx⟩
    | some rl =>
        cases hf : findRanked available rl with
        | some hit =>
            simp only [hf]
            exact ⟨hit, rfl, findRanked_mem _ _ _ hf⟩
        | none =>
            simp only [hf]
            obtain ⟨x, hx⟩ := fallbackChoice_isSome level available hne
            exact ⟨x, hx, fallbackChoice_mem _ _ _ hx⟩

/-- `unlockLand` issues exactly one unlock call per id, in order. -/
theorem unlockLand_trace (ok : Nat → Bool) (ids : List Nat) :
    (unlockLand ok ids).2 = ids.map Call.unlockOne := by
  induction ids with
  | nil => rfl
  | cons id rest ih =>
      by_cases h : ok id <;> simp [unlockLand, h, ih]

/-- `upgradeLand` issues exactly one upgrade call per id, in order. -/
theorem upgradeLand_trace (ok : Nat → Bool) (ids : List Nat) :
    (upgradeLand ok ids).2 = ids.map Call.upgradeOne := by
  induction ids with
  | nil => rfl
  | cons id rest ih =>
      by_cases h : ok id <;> simp [upgradeLand, h, ih]

/-- Membership in a conditional singleton pins the element down. -/
theorem mem_ite_singleton {α : Type} {p : Prop} [Decidable p] {x c : α}
    (h : c ∈ (if p then [x] else [])) : c = x := by
  split at h
  · simpa using h
  · cases h

/-- Batch maintenance issues only phase-1 calls. -/
theorem batchMaintenance_phase (status : AnalyzeResult) :
    ∀ c ∈ batchMaintenanceTrace status, callPhase c = 1 := by
  intro c hc
  unfold batchMaintenanceTrace at hc
  simp only [List.mem_append] at hc
  rcases hc with (hc | hc) | hc <;> rw [mem_ite_singleton hc] <;> rfl

/-- The harvest step issues only phase-2 calls. -/
theorem harvestPhase_phase (harvestable : List Nat) (ok : Bool)
    (upg : CooldownMap) :
    ∀ c ∈ (harvestPhase harvestable ok upg).2, callPhase c = 2 := by
  intro c hc
  unfold harvestPhase at hc
  split at hc
  · split at hc <;>
      (simp only [List.mem_singleton] at hc; subst hc; rfl)
  · cases hc

/-- The unlock section's trace: the cooldown-filtered candidates, one call
each, whenever the feature is on and candidates exist. -/
theorem unlockPhase_trace (cfg : Config) (o : Oracle) (t : CycleTimes)
    (elig : List Nat) (unl : CooldownMap) :
    (unlockPhase cfg o t elig unl).2 =
      if cfg.autoExpandLand && elig.length > 0 then
        (elig.filter (cooldownEligible unl t.unlockNowMs)).map Call.unlockOne
      else [] := by
  unfold unlockPhase
  dsimp only
  split
  · split
    · rw [unlockLand_trace]
    · next h =>
        have hnil : elig.filter (cooldownEligible unl t.unlockNowMs) = [] :=
          List.length_eq_zero.mp (Nat.eq_zero_of_not_pos h)
        rw [hnil]
        rfl
  · rfl

/-- The upgrade section's trace, same contract as the unlock section. -/
theorem upgradePhase_trace (cfg : Config) (o : Oracle) (t : CycleTimes)
    (elig : List Nat) (upg : CooldownMap) :
    (upgradePhase cfg o t elig upg).2 =
      if cfg.autoUpgradeRedLand && elig.length > 0 then
        (elig.filter (cooldownEligible upg t.upgradeNowMs)).map Call.upgradeOne
      else [] := by
  unfold upgradePhase
  dsimp only
  split
  · split
    · rw [upgradeLand_trace]
    · next h =>
        have hnil : elig.filter (cooldownEligible upg t.upgradeNowMs) = [] :=
          List.length_eq_zero.mp (Nat.eq_zero_of_not_pos h)
        rw [hnil]
        rfl
  · rfl

/-- The unlock section issues only phase-3 calls. -/
theorem unlockPhase_phase (cfg : Config) (o : Oracle) (t : CycleTimes)
    (elig : List Nat) (unl : CooldownMap) :
    ∀ c ∈ (unlockPhase cfg o t elig unl).2, callPhase c = 3 := by
  intro c hc
  rw [unlockPhase_trace] at hc
  split at hc
  · obtain ⟨id, _, rfl⟩ := List.mem_map.mp hc
    rfl
  · cases hc

/-- The upgrade section issues only phase-4 calls. -/
theorem upgradePhase_phase (cfg : Config) (o : Oracle) (t : CycleTimes)
    (elig : List Nat) (upg : CooldownMap) :
    ∀ c ∈ (upgradePhase cfg o t elig upg).2, callPhase c = 4 := by
  intro c hc
  rw [upgradePhase_trace] at hc
  split at hc
  · obtain ⟨id, _, rfl⟩ := List.mem_map.mp hc
    rfl
  · cases hc

/-- The replant pipeline issues only phase-5 calls. -/
theorem autoPlant_phase (cfg : Config) (o : Oracle) (level : Nat)
    (gold : Int) (dead empty : List Nat) (n : Nat) :
    ∀ c ∈ (autoPlantEmptyLands cfg o level gold dead empty n).2,
      callPhase c = 5 := by
  intro c hc
  simp only [autoPlantEmptyLands] at hc
  repeat' split at hc
  all_goals
    simp only [plantSeeds_eq, fertilize_eq, List.mem_append,
      List.mem_singleton, List.mem_map] at hc
  all_goals
    repeat (rcases hc with hc | hc)
  all_goals
    first
      | rfl
      | (subst hc; rfl)
      | (obtain ⟨id, _, rfl⟩ := hc; rfl)
      | cases hc

/-- The final planting list only draws from the empty and dead sets. -/
theorem finalPlantList_subset (bs : SeedChoice) (gold : Int)
    (dead empty : List Nat) :
    ∀ x ∈ finalPlantList bs gold dead empty, x ∈ empty ++ dead := by
  intro x hx
  simp only [finalPlantList] at hx
  split at hx <;> split at hx <;>
    first
      | exact List.take_subset _ _ hx
      | exact hx
      | exact List.mem_append_left _ (List.take_subset _ _ hx)
      | exact List.mem_append_left _ hx

/-- A list of calls with phases away from a recognizer's phase filters to
nothing. -/
theorem filter_nil_of_phase {p : Call → Bool} {l : List Call} {k j : Nat}
    (hl : ∀ c ∈ l, callPhase c = k) (hp : ∀ c, p c = true → callPhase c = j)
    (hkj : ¬ k = j) : l.filter p = [] := by
  rw [List.filter_eq_nil]
  intro a ha hpa
  exact hkj (by rw [← hl a ha, hp a hpa])

/-- Plant calls are not removal calls. -/
theorem filter_isRemove_plantMap (sid : Nat) (l : List Nat) :
    (l.map (Call.plantOne sid)).filter isRemovePlantCall = [] := by
  induction l <;> simp_all [isRemovePlantCall]

/-- Fertilize calls are not removal calls. -/
theorem filter_isRemove_fertMap (fid : Nat) (l : List Nat) :
    (l.map (fun id => Call.fertilizeOne id fid)).filter isRemovePlantCall = [] := by
  induction l <;> simp_all [isRemovePlantCall]

/-- A planting loop issues no removal call. -/
theorem filter_isRemove_plantTrace (ok : Nat → Bool) (sid : Nat)
    (l : List Nat) :
    (plantSeeds ok sid l).2.filter isRemovePlantCall = [] := by
  rw [plantSeeds_eq]
  exact filter_isRemove_plantMap _ _

/-- A fertilize loop issues no removal call. -/
theorem filter_isRemove_fert (ok : Nat → Bool) (fid : Nat) (l : List Nat) :
    (fertilize ok fid l).2.filter isRemovePlantCall = [] := by
  rw [fertilize_eq]
  exact filter_isRemove_fertMap _ _

/-- The only batched-removal call a replant run can issue carries exactly
the dead-residue set, and it is issued exactly when that set is
non-empty. -/
theorem autoPlant_filter_remove (cfg : Config) (o : Oracle) (level : Nat)
    (gold : Int) (dead empty : List Nat) (n : Nat) :
    (autoPlantEmptyLands cfg o level gold dead empty n).2.filter
        isRemovePlantCall =
      if 0 < dead.length then [Call.removePlant dead] else [] := by
  simp only [autoPlantEmptyLands]
  repeat' split
  all_goals
    simp [List.filter_append, isRemovePlantCall, filter_isRemove_plantTrace,
      filter_isRemove_fert]

/-- A plant call never appears among fertilize calls. -/
theorem plantOne_not_mem_fertMap (sid id fid : Nat) (l : List Nat) :
    Call.plantOne sid id ∉ l.map (fun i => Call.fertilizeOne i fid) := by
  intro h
  obtain ⟨a, _, heq⟩ := List.mem_map.mp h
  cases heq

/-- Any plant call of a replant run targets an empty or dead-residue
plot. -/
theorem autoPlant_plant_mem (cfg : Config) (o : Oracle) (level : Nat)
    (gold : Int) (dead empty : List Nat) (n : Nat) (sid id : Nat)
    (h : Call.plantOne sid id ∈
      (autoPlantEmptyLands cfg o level gold dead empty n).2) :
    id ∈ empty ++ dead := by
  simp only [autoPlantEmptyLands] at h
  repeat' split at h
  all_goals
    simp only [plantSeeds_eq, fertilize_eq] at h
  all_goals
    simp [isPlantCall] at h
  all_goals
    first
      | exact finalPlantList_subset _ _ _ _ _ h.1
      | exact finalPlantList_subset _ _ _ _ _ h.2
      | exact finalPlantList_subset _ _ _ _ _ h
      | exact absurd
          (List.mem_of_mem_take (List.mem_of_mem_drop (List.mem_of_mem_take h)))
          (plantOne_not_mem_fertMap _ _ _ _)
      | (rcases h with h | h
         · exact finalPlantList_subset _ _ _ _ _ h.1
         · exact absurd
             (List.mem_of_mem_take
               (List.mem_of_mem_drop (List.mem_of_mem_take h)))
             (plantOne_not_mem_fertMap _ _ _ _))

/-- The replant segment has only phase-5 calls. -/
theorem plantSegOf_phase (cfg : Config) (o : Oracle) (t : CycleTimes)
    (st : FarmState) (lands : List Land) :
    ∀ c ∈ plantSegOf cfg o t st lands, callPhase c = 5 := by
  intro c hc
  unfold plantSegOf at hc
  rw [apply_ite Prod.snd] at hc
  split at hc
  · exact autoPlant_phase _ _ _ _ _ _ _ c hc
  · simp at hc

/-- Any plant call of the replant segment targets one of the two replant
sets. -/
theorem plantSegOf_plant_mem (cfg : Config) (o : Oracle) (t : CycleTimes)
    (st : FarmState) (lands : List Land) (sid id : Nat)
    (h : Call.plantOne sid id ∈ plantSegOf cfg o t st lands) :
    id ∈ allEmptyLandsOf (analyzeLands lands t.nowSec) ++
      allDeadLandsOf (analyzeLands lands t.nowSec)
        (harvestPhase (analyzeLands lands t.nowSec).harvestable o.harvestOk
          st.upgradeRetryCooldown).1.1
        (upgradePhase cfg o t (analyzeLands lands t.nowSec).eligibleForUpgrade
          (harvestPhase (analyzeLands lands t.nowSec).harvestable o.harvestOk
            st.upgradeRetryCooldown).1.2).1.2 := by
  unfold plantSegOf at h
  rw [apply_ite Prod.snd] at h
  split at h
  · exact autoPlant_plant_mem _ _ _ _ _ _ _ _ _ h
  · simp at h

/-- The replant segment's removal calls: the batched removal over the
amended removal set, exactly when that set is non-empty. -/
theorem plantSegOf_filter_remove (cfg : Config) (o : Oracle) (t : CycleTimes)
    (st : FarmState) (lands : List Land) :
    (plantSegOf cfg o t st lands).filter isRemovePlantCall =
      if 0 < (allDeadLandsOf (analyzeLands lands t.nowSec)
          (harvestPhase (analyzeLands lands t.nowSec).harvestable o.harvestOk
            st.upgradeRetryCooldown).1.1
          (upgradePhase cfg o t
            (analyzeLands lands t.nowSec).eligibleForUpgrade
            (harvestPhase (analyzeLands lands t.nowSec).harvestable
              o.harvestOk st.upgradeRetryCooldown).1.2).1.2).length then
        [Call.removePlant (allDeadLandsOf (analyzeLands lands t.nowSec)
          (harvestPhase (analyzeLands lands t.nowSec).harvestable o.harvestOk
            st.upgradeRetryCooldown).1.1
          (upgradePhase cfg o t
            (analyzeLands lands t.nowSec).eligibleForUpgrade
            (harvestPhase (analyzeLands lands t.nowSec).harvestable
              o.harvestOk st.upgradeRetryCooldown).1.2).1.2)]
      else [] := by
  unfold plantSegOf
  rw [apply_ite Prod.snd]
  split
  · rw [autoPlant_filter_remove]
  · next h =>
      have hb := Bool.or_eq_false_iff.mp (Bool.eq_false_iff.mpr h)
      have h0 : ¬ 0 < (allDeadLandsOf (analyzeLands lands t.nowSec)
          (harvestPhase (analyzeLands lands t.nowSec).harvestable o.harvestOk
            st.upgradeRetryCooldown).1.1
          (upgradePhase cfg o t
            (analyzeLands lands t.nowSec).eligibleForUpgrade
            (harvestPhase (analyzeLands lands t.nowSec).harvestable
              o.harvestOk st.upgradeRetryCooldown).1.2).1.2).length := by
        simpa using hb.1
      rw [if_neg h0]
      rfl

/-- The full trace of a cycle that fetched a non-empty snapshot:
snapshot fetch, maintenance batch, harvest step, unlock section, upgrade
section, replant pipeline, in that order. -/
theorem checkFarm_trace_eq (cfg : Config) (o : Oracle) (t : CycleTimes)
    (st : FarmState) (lands : List Land)
    (hflag : st.isCheckingFarm = false) (hgid : st.gid ≠ 0)
    (hlands : o.allLands = some lands) (hne : ¬ lands.length = 0) :
    (checkFarm cfg o t st).2 =
      Call.getAllLands ::
        (batchMaintenanceTrace (analyzeLands lands t.nowSec) ++
          (harvestPhase (analyzeLands lands t.nowSec).harvestable o.harvestOk
            st.upgradeRetryCooldown).2 ++
          (unlockPhase cfg o t (analyzeLands lands t.nowSec).eligibleForUnlock
            st.unlockRetryCooldown).2 ++
          (upgradePhase cfg o t
            (analyzeLands lands t.nowSec).eligibleForUpgrade
            (harvestPhase (analyzeLands lands t.nowSec).harvestable o.harvestOk
              st.upgradeRetryCooldown).1.2).2 ++
          plantSegOf cfg o t st lands) := by
  unfold checkFarm
  rw [hflag]
  rw [if_neg (by simpa using hgid)]
  rw [hlands]
  dsimp only
  rw [if_neg hne]
  rfl

/-- Recognizers pin down the phase of a call. -/
theorem isRemovePlantCall_phase : ∀ c, isRemovePlantCall c = true →
    callPhase c = 5 := by
  intro c
  cases c <;> simp [isRemovePlantCall, callPhase]

theorem isWeedCall_phase : ∀ c, isWeedCall c = true → callPhase c = 1 := by
  intro c
  cases c <;> simp [isWeedCall, callPhase]

theorem isBugCall_phase : ∀ c, isBugCall c = true → callPhase c = 1 := by
  intro c
  cases c <;> simp [isBugCall, callPhase]

theorem isWaterCall_phase : ∀ c, isWaterCall c = true → callPhase c = 1 := by
  intro c
  cases c <;> simp [isWaterCall, callPhase]

theorem isHarvestCall_phase : ∀ c, isHarvestCall c = true → callPhase c = 2 := by
  intro c
  cases c <;> simp [isHarvestCall, callPhase]

theorem isUnlockCall_phase : ∀ c, isUnlockCall c = true → callPhase c = 3 := by
  intro c
  cases c <;> simp [isUnlockCall, callPhase]

theorem isUpgradeCall_phase : ∀ c, isUpgradeCall c = true → callPhase c = 4 := by
  intro c
  cases c <;> simp [isUpgradeCall, callPhase]

/-- A constant-phase segment is internally ordered. -/
theorem pairwise_const_phase {l : List Call} {k : Nat}
    (h : ∀ c ∈ l, callPhase c = k) :
    l.Pairwise (fun a b => callPhase a ≤ callPhase b) := by
  induction l with
  | nil => exact List.Pairwise.nil
  | cons a as ih =>
      refine List.Pairwise.cons (fun b hb => ?_)
        (ih fun c hc => h c (List.mem_cons_of_mem a hc))
      rw [h a (List.mem_cons_self a as), h b (List.mem_cons_of_mem a hb)]

/-- Prepending a segment of constant phase below a lower-bounded ordered
rest keeps the trace ordered and lower-bounded. -/
theorem pairwise_build {seg rest : List Call} {k : Nat}
    (hseg : ∀ c ∈ seg, callPhase c = k)
    (hrest : ∀ c ∈ rest, k ≤ callPhase c)
    (hp : rest.Pairwise (fun a b => callPhase a ≤ callPhase b)) :
    ((seg ++ rest).Pairwise (fun a b => callPhase a ≤ callPhase b))
    ∧ ∀ c ∈ seg ++ rest, k ≤ callPhase c := by
  constructor
  · refine List.pairwise_append.mpr ⟨pairwise_const_phase hseg, hp, ?_⟩
    intro a ha b hb
    rw [hseg a ha]
    exact hrest b hb
  · intro c hc
    rcases List.mem_append.mp hc with h | h
    · exact le_of_eq (hseg c h).symm
    · exact hrest c h

/-- C7: on a non-empty filtered catalog, `findBestSeed` never returns null
and follows the cascade: the pinned entry when the pinned id is present;
under force-cheapest the (level requirement, price)-lexicographically
minimal entry; and when the external ranking is absent (threw) or matches
nothing, the static fallback — minimal level requirement at or below level
28 (at the falsy level 0 the source sorts descending, but every available
entry then requires level 0, so the minimum is still returned), maximal
level requirement above 28. -/
theorem c7_findBestSeed_cascade (cfg : Config) (level : Nat)
    (goods : List GoodsEntry) (rec : Option (List Nat))
    (hne : toAvailable level goods ≠ []) :
    (∃ e, findBestSeed cfg level (some goods) rec = Except.ok (some e)
        ∧ e ∈ toAvailable level goods)
    ∧ (∀ p ∈ toAvailable level goods,
        cfg.preferredSeedId ≠ 0 → p.seedId = cfg.preferredSeedId →
        ∃ e, findBestSeed cfg level (some goods) rec = Except.ok (some e)
          ∧ e.seedId = cfg.preferredSeedId ∧ e ∈ toAvailable level goods)
    ∧ (cfg.preferredSeedId = 0 → cfg.forceLowestLevelCrop = true →
        ∃ e, findBestSeed cfg level (some goods) rec = Except.ok (some e)
          ∧ e ∈ toAvailable level goods
          ∧ ∀ f ∈ toAvailable level goods,
              e.requiredLevel ≤ f.requiredLevel
              ∧ (e.requiredLevel = f.requiredLevel → e.price ≤ f.price))
    ∧ (cfg.preferredSeedId = 0 → cfg.forceLowestLevelCrop = false →
        (rec = none ∨
          ∃ rl, rec = some rl ∧
            findRanked (toAvailable level goods) rl = none) →
        ∃ e, findBestSeed cfg level (some goods) rec = Except.ok (some e)
          ∧ e ∈ toAvailable level goods
          ∧ (level ≤ 28 → ∀ f ∈ toAvailable level goods,
              e.requiredLevel ≤ f.requiredLevel)
          ∧ (28 < level → ∀ f ∈ toAvailable level goods,
              f.requiredLevel ≤ e.requiredLevel)) := by
  have hgood : goods.isEmpty = false := by
    cases goods with
    | nil => exact absurd rfl hne
    | cons a as => rfl
  have hAempty : (toAvailable level goods).isEmpty = false := by
    cases hA : toAvailable level goods with
    | nil => exact absurd hA hne
    | cons a as => rfl
  refine ⟨?_, ?_, ?_, ?_⟩
  · -- never null while the filtered list is non-empty
    simp only [findBestSeed, hgood, hAempty, Bool.false_eq_true, if_false]
    cases hpref : (if cfg.preferredSeedId ≠ 0 then
        (toAvailable level goods).find?
          (fun x => x.seedId = cfg.preferredSeedId)
      else none) with
    | some p =>
        refine ⟨p, rfl, ?_⟩
        by_cases hp : cfg.preferredSeedId ≠ 0
        · rw [if_pos hp] at hpref
          exact List.mem_of_find?_eq_some hpref
        · rw [if_neg hp] at hpref
          cases hpref
    | none =>
        obtain ⟨e, he, hm⟩ :=
          selectSeedTail_mem cfg level rec (toAvailable level goods) hne
        exact ⟨e, by rw [he], hm⟩
  · -- the pinned entry wins when present
    intro p hp hp0 hps
    simp only [findBestSeed, hgood, hAempty, Bool.false_eq_true, if_false,
      if_pos hp0]
    have hsome : ((toAvailable level goods).find?
        (fun x => x.seedId = cfg.preferredSeedId)).isSome := by
      rw [List.find?_isSome]
      exact ⟨p, hp, by simp [hps]⟩
    obtain ⟨q, hq⟩ := Option.isSome_iff_exists.mp hsome
    rw [hq]
    refine ⟨q, rfl, ?_, List.mem_of_find?_eq_some hq⟩
    have := List.find?_some hq
    simpa using this
  · -- force-cheapest: lexicographic (requiredLevel, price) minimum
    intro hp0 hforce
    simp only [findBestSeed, hgood, hAempty, Bool.false_eq_true, if_false,
      hp0, ne_eq, not_true_eq_false, if_false]
    simp only [selectSeedTail, hforce, if_true]
    obtain ⟨x, hx⟩ := sortHead_isSome levelPriceLt (toAvailable level goods) hne
    rw [hx]
    refine ⟨x, rfl, sortHead_mem _ _ _ hx, ?_⟩
    intro f hf
    have := sortHead_min levelPriceLt levelPriceLt_irr levelPriceLt_trans
      levelPriceLt_neg (toAvailable level goods) x hx f hf
    simp only [levelPriceLt, Bool.or_eq_false_iff, Bool.and_eq_false_iff,
      decide_eq_false_iff_not] at this
    omega
  · -- ranking absent or matched nothing: static fallback
    intro hp0 hforce hrec
    simp only [findBestSeed, hgood, hAempty, Bool.false_eq_true, if_false,
      hp0, ne_eq, not_true_eq_false, if_false]
    have htail : selectSeedTail cfg level rec (toAvailable level goods) =
        fallbackChoice level (toAvailable level goods) := by
      unfold selectSeedTail
      rw [hforce]
      simp only [Bool.false_eq_true, if_false]
      rcases hrec with h | ⟨rl, hrl, hfr⟩
      · rw [h]
      · rw [hrl]
        simp only [hfr]
    rw [htail]
    obtain ⟨x, hx⟩ := fallbackChoice_isSome level (toAvailable level goods) hne
    rw [hx]
    refine ⟨x, rfl, fallbackChoice_mem _ _ _ hx, ?_, ?_⟩
    · intro h28 f hf
      by_cases h0 : level = 0
      · subst h0
        have hx0 := toAvailable_level_zero goods x (fallbackChoice_mem _ _ _ hx)
        have hf0 := toAvailable_level_zero goods f hf
        omega
      · exact fallbackChoice_min level (toAvailable level goods) x h0 h28 hx f hf
    · intro h28 f hf
      exact fallbackChoice_max level (toAvailable level goods) x
        (by omega) hx f hf

/-- Witness for C7 on a two-entry catalog at level 10 with no pin, no
force-cheapest and no ranking. -/
theorem c7_findBestSeed_cascade_witness :
    (toAvailable 10 c7Goods ≠ [])
    ∧ ((∃ e, findBestSeed cfgC6 10 (some c7Goods) none = Except.ok (some e)
          ∧ e ∈ toAvailable 10 c7Goods)
      ∧ (∀ p ∈ toAvailable 10 c7Goods,
          cfgC6.preferredSeedId ≠ 0 → p.seedId = cfgC6.preferredSeedId →
          ∃ e, findBestSeed cfgC6 10 (some c7Goods) none = Except.ok (some e)
            ∧ e.seedId = cfgC6.preferredSeedId ∧ e ∈ toAvailable 10 c7Goods)
      ∧ (cfgC6.preferredSeedId = 0 → cfgC6.forceLowestLevelCrop = true →
          ∃ e, findBestSeed cfgC6 10 (some c7Goods) none = Except.ok (some e)
            ∧ e ∈ toAvailable 10 c7Goods
            ∧ ∀ f ∈ toAvailable 10 c7Goods,
                e.requiredLevel ≤ f.requiredLevel
                ∧ (e.requiredLevel = f.requiredLevel → e.price ≤ f.price))
      ∧ (cfgC6.preferredSeedId = 0 → cfgC6.forceLowestLevelCrop = false →
          ((none : Option (List Nat)) = none ∨
            ∃ rl, (none : Option (List Nat)) = some rl ∧
              findRanked (toAvailable 10 c7Goods) rl = none) →
          ∃ e, findBestSeed cfgC6 10 (some c7Goods) none = Except.ok (some e)
            ∧ e ∈ toAvailable 10 c7Goods
            ∧ (10 ≤ 28 → ∀ f ∈ toAvailable 10 c7Goods,
                e.requiredLevel ≤ f.requiredLevel)
            ∧ (28 < 10 → ∀ f ∈ toAvailable 10 c7Goods,
                f.requiredLevel ≤ e.requiredLevel))) :=
  ⟨by decide, c7_findBestSeed_cascade cfgC6 10 c7Goods none (by decide)⟩

/-- C10: invoking `checkFarm` while a cycle is already in flight is a
no-op — the whole engine state is returned unchanged and no remote call
(in particular no snapshot fetch) is issued — and whenever a cycle does
run (guard not taken), the in-flight guard is back to released at the end
of the cycle on every path, including the path where the snapshot fetch
throws. -/
theorem c10_reentrancy_guard (cfg : Config) (o : Oracle) (t : CycleTimes)
    (st : FarmState) :
    (st.isCheckingFarm = true → checkFarm cfg o t st = (st, []))
    ∧ (st.isCheckingFarm = false →
        (checkFarm cfg o t st).1.isCheckingFarm = false) := by
  constructor
  · intro h
    simp [checkFarm, h]
  · intro h
    unfold checkFarm
    by_cases hg : st.gid = 0
    · simp [h, hg]
    · simp only [h, hg, decide_False, Bool.or_false, Bool.false_eq_true,
        if_false]
      cases o.allLands with
      | none => rfl
      | some lands =>
          simp only
          split
          · rfl
          · rfl

/-- Witness for C10: a busy-state invocation is the identity with an empty
trace, and an idle-state cycle ends with the guard released. -/
theorem c10_reentrancy_guard_witness :
    (checkFarm ⟨true, true, 0, false⟩ sampleOracle sampleTimes
        sampleBusyState = (sampleBusyState, []))
    ∧ (checkFarm ⟨true, true, 0, false⟩ sampleOracle sampleTimes
        sampleIdleState).1.isCheckingFarm = false :=
  ⟨(c10_reentrancy_guard ⟨true, true, 0, false⟩ sampleOracle sampleTimes
      sampleBusyState).1 rfl,
    (c10_reentrancy_guard ⟨true, true, 0, false⟩ sampleOracle sampleTimes
      sampleIdleState).2 rfl⟩

/-- C3 counterexample: plot 1 is dead and fails its upgrade attempt this
cycle, so the claim's removal set — the union of dead and harvested plots
minus the plots that failed upgrade — is empty, yet the cycle issues a
batched removal call for plot 1: the source never subtracts the failed
upgrades from the dead plots, only from the harvested ones. -/
theorem c3_counterexample :
    c3status.dead = [1]
    ∧ c3failed = [1]
    ∧ (c3status.dead ++ c3harvested).filter
        (fun id => !c3failed.contains id) = []
    ∧ Call.removePlant [1] ∈ (checkFarm cfgC3 oC3 sampleTimes stC3).2 := by
  decide

/-- C3 (amended): the removal set handed to the batched removal call is
the dead plots plus those harvested-this-cycle plots that did not fail
upgrade this cycle (a dead plot is not excluded by its own upgrade
failure); the direct-seeding set is the empty plots minus all upgrade
candidates; and every plant call targets a plot of one of the two sets. -/
theorem c3_replant_sets (cfg : Config) (o : Oracle) (t : CycleTimes)
    (st : FarmState) (lands : List Land)
    (hflag : st.isCheckingFarm = false) (hgid : st.gid ≠ 0)
    (hlands : o.allLands = some lands) (hne : ¬ lands.length = 0) :
    (allDeadLandsOf (analyzeLands lands t.nowSec)
        (harvestPhase (analyzeLands lands t.nowSec).harvestable o.harvestOk
          st.upgradeRetryCooldown).1.1
        (upgradePhase cfg o t (analyzeLands lands t.nowSec).eligibleForUpgrade
          (harvestPhase (analyzeLands lands t.nowSec).harvestable o.harvestOk
            st.upgradeRetryCooldown).1.2).1.2 =
      (analyzeLands lands t.nowSec).dead ++
        (harvestPhase (analyzeLands lands t.nowSec).harvestable o.harvestOk
          st.upgradeRetryCooldown).1.1.filter
          (fun id =>
            !((upgradePhase cfg o t
                (analyzeLands lands t.nowSec).eligibleForUpgrade
                (harvestPhase (analyzeLands lands t.nowSec).harvestable
                  o.harvestOk st.upgradeRetryCooldown).1.2).1.2.contains id)))
    ∧ (allEmptyLandsOf (analyzeLands lands t.nowSec) =
        (analyzeLands lands t.nowSec).empty.filter
          (fun id =>
            !((analyzeLands lands t.nowSec).eligibleForUpgrade.contains id)))
    ∧ ((checkFarm cfg o t st).2.filter isRemovePlantCall =
        if 0 < (allDeadLandsOf (analyzeLands lands t.nowSec)
            (harvestPhase (analyzeLands lands t.nowSec).harvestable o.harvestOk
              st.upgradeRetryCooldown).1.1
            (upgradePhase cfg o t
              (analyzeLands lands t.nowSec).eligibleForUpgrade
              (harvestPhase (analyzeLands lands t.nowSec).harvestable
                o.harvestOk st.upgradeRetryCooldown).1.2).1.2).length then
          [Call.removePlant (allDeadLandsOf (analyzeLands lands t.nowSec)
            (harvestPhase (analyzeLands lands t.nowSec).harvestable o.harvestOk
              st.upgradeRetryCooldown).1.1
            (upgradePhase cfg o t
              (analyzeLands lands t.nowSec).eligibleForUpgrade
              (harvestPhase (analyzeLands lands t.nowSec).harvestable
                o.harvestOk st.upgradeRetryCooldown).1.2).1.2)]
        else [])
    ∧ (∀ sid id, Call.plantOne sid id ∈ (checkFarm cfg o t st).2 →
        id ∈ allEmptyLandsOf (analyzeLands lands t.nowSec) ++
          allDeadLandsOf (analyzeLands lands t.nowSec)
            (harvestPhase (analyzeLands lands t.nowSec).harvestable o.harvestOk
              st.upgradeRetryCooldown).1.1
            (upgradePhase cfg o t
              (analyzeLands lands t.nowSec).eligibleForUpgrade
              (harvestPhase (analyzeLands lands t.nowSec).harvestable
                o.harvestOk st.upgradeRetryCooldown).1.2).1.2) := by
  refine ⟨rfl, rfl, ?_, ?_⟩
  · rw [checkFarm_trace_eq cfg o t st lands hflag hgid hlands hne]
    have h1 : (batchMaintenanceTrace (analyzeLands lands t.nowSec)).filter
        isRemovePlantCall = [] :=
      filter_nil_of_phase (batchMaintenance_phase _) isRemovePlantCall_phase
        (by decide)
    have h2 : ((harvestPhase (analyzeLands lands t.nowSec).harvestable
        o.harvestOk st.upgradeRetryCooldown).2).filter isRemovePlantCall = [] :=
      filter_nil_of_phase (harvestPhase_phase _ _ _) isRemovePlantCall_phase
        (by decide)
    have h3 : ((unlockPhase cfg o t
        (analyzeLands lands t.nowSec).eligibleForUnlock
        st.unlockRetryCooldown).2).filter isRemovePlantCall = [] :=
      filter_nil_of_phase (unlockPhase_phase _ _ _ _ _) isRemovePlantCall_phase
        (by decide)
    have h4 : ((upgradePhase cfg o t
        (analyzeLands lands t.nowSec).eligibleForUpgrade
        (harvestPhase (analyzeLands lands t.nowSec).harvestable o.harvestOk
          st.upgradeRetryCooldown).1.2).2).filter isRemovePlantCall = [] :=
      filter_nil_of_phase (upgradePhase_phase _ _ _ _ _) isRemovePlantCall_phase
        (by decide)
    simp only [List.filter_cons, List.filter_append, h1, h2, h3, h4,
      plantSegOf_filter_remove]
    simp [isRemovePlantCall]
  · intro sid id hmem
    rw [checkFarm_trace_eq cfg o t st lands hflag hgid hlands hne] at hmem
    simp only [List.mem_cons, List.mem_append] at hmem
    rcases hmem with hmem | (((hm | hh) | hu) | hg) | hp
    · exact absurd hmem (by simp)
    · have := batchMaintenance_phase _ _ hm
      simp [callPhase] at this
    · have := harvestPhase_phase _ _ _ _ hh
      simp [callPhase] at this
    · have := unlockPhase_phase _ _ _ _ _ _ hu
      simp [callPhase] at this
    · have := upgradePhase_phase _ _ _ _ _ _ hg
      simp [callPhase] at this
    · exact plantSegOf_plant_mem _ _ _ _ _ _ _ hp

/-- Witness for C3 (amended) on the C3 scenario: the batched removal call
of the cycle carries exactly the amended removal set. -/
theorem c3_replant_sets_witness :
    (checkFarm cfgC3 oC3 sampleTimes stC3).2.filter isRemovePlantCall =
      if 0 < (allDeadLandsOf (analyzeLands landsC3 sampleTimes.nowSec)
          (harvestPhase (analyzeLands landsC3 sampleTimes.nowSec).harvestable
            oC3.harvestOk stC3.upgradeRetryCooldown).1.1
          (upgradePhase cfgC3 oC3 sampleTimes
            (analyzeLands landsC3 sampleTimes.nowSec).eligibleForUpgrade
            (harvestPhase (analyzeLands landsC3 sampleTimes.nowSec).harvestable
              oC3.harvestOk stC3.upgradeRetryCooldown).1.2).1.2).length then
        [Call.removePlant (allDeadLandsOf (analyzeLands landsC3 sampleTimes.nowSec)
          (harvestPhase (analyzeLands landsC3 sampleTimes.nowSec).harvestable
            oC3.harvestOk stC3.upgradeRetryCooldown).1.1
          (upgradePhase cfgC3 oC3 sampleTimes
            (analyzeLands landsC3 sampleTimes.nowSec).eligibleForUpgrade
            (harvestPhase (analyzeLands landsC3 sampleTimes.nowSec).harvestable
              oC3.harvestOk stC3.upgradeRetryCooldown).1.2).1.2)]
      else [] :=
  (c3_replant_sets cfgC3 oC3 sampleTimes stC3 landsC3 rfl (by decide) rfl
    (by decide)).2.2.1

/-- The maintenance batch's weed-out calls: one batched call over the whole
category when non-empty. -/
theorem maint_filter_weed (status : AnalyzeResult) :
    (batchMaintenanceTrace status).filter isWeedCall =
      (if status.needWeed.length > 0 then [Call.weedOut status.needWeed]
       else []) := by
  unfold batchMaintenanceTrace
  repeat' split
  all_goals simp [isWeedCall]

/-- The maintenance batch's insecticide calls. -/
theorem maint_filter_bug (status : AnalyzeResult) :
    (batchMaintenanceTrace status).filter isBugCall =
      (if status.needBug.length > 0 then [Call.insecticide status.needBug]
       else []) := by
  unfold batchMaintenanceTrace
  repeat' split
  all_goals simp [isBugCall]

/-- The maintenance batch's watering calls. -/
theorem maint_filter_water (status : AnalyzeResult) :
    (batchMaintenanceTrace status).filter isWaterCall =
      (if status.needWater.length > 0 then [Call.waterLand status.needWater]
       else []) := by
  unfold batchMaintenanceTrace
  repeat' split
  all_goals simp [isWaterCall]

/-- The harvest step's trace: one batched call over all harvestable ids
when any exist. -/
theorem harvestPhase_trace (harvestable : List Nat) (ok : Bool)
    (upg : CooldownMap) :
    (harvestPhase harvestable ok upg).2 =
      if harvestable.length > 0 then [Call.harvest harvestable] else [] := by
  unfold harvestPhase
  repeat' split
  all_goals rfl

/-- Unlock calls pass the unlock filter unchanged. -/
theorem filter_isUnlock_map (l : List Nat) :
    (l.map Call.unlockOne).filter isUnlockCall = l.map Call.unlockOne := by
  induction l <;> simp_all [isUnlockCall]

/-- Upgrade calls pass the upgrade filter unchanged. -/
theorem filter_isUpgrade_map (l : List Nat) :
    (l.map Call.upgradeOne).filter isUpgradeCall = l.map Call.upgradeOne := by
  induction l <;> simp_all [isUpgradeCall]

/-- C1: the cycle's remote calls follow the orchestrator's fixed phase
order — snapshot fetch, the batch-maintenance calls (pushed together,
one batched call per non-empty category over its whole id set, and awaited
before anything later), one batched harvest call over all harvestable ids,
per-item unlock calls over the cooldown-filtered candidates, per-item
upgrade calls likewise, then the replant pipeline's calls. The phase index
is nondecreasing along the trace, so no later phase's call is issued
before every earlier phase's calls. Concurrent issuance of the three
maintenance calls appears in this sequential trace model as their
adjacency inside phase 1. -/
theorem c1_orchestrator_order (cfg : Config) (o : Oracle) (t : CycleTimes)
    (st : FarmState) (lands : List Land)
    (hflag : st.isCheckingFarm = false) (hgid : st.gid ≠ 0)
    (hlands : o.allLands = some lands) (hne : ¬ lands.length = 0) :
    List.Pairwise (fun a b => callPhase a ≤ callPhase b)
      (checkFarm cfg o t st).2
    ∧ (checkFarm cfg o t st).2.filter isWeedCall =
        (if (analyzeLands lands t.nowSec).needWeed.length > 0 then
          [Call.weedOut (analyzeLands lands t.nowSec).needWeed] else [])
    ∧ (checkFarm cfg o t st).2.filter isBugCall =
        (if (analyzeLands lands t.nowSec).needBug.length > 0 then
          [Call.insecticide (analyzeLands lands t.nowSec).needBug] else [])
    ∧ (checkFarm cfg o t st).2.filter isWaterCall =
        (if (analyzeLands lands t.nowSec).needWater.length > 0 then
          [Call.waterLand (analyzeLands lands t.nowSec).needWater] else [])
    ∧ (checkFarm cfg o t st).2.filter isHarvestCall =
        (if (analyzeLands lands t.nowSec).harvestable.length > 0 then
          [Call.harvest (analyzeLands lands t.nowSec).harvestable] else [])
    ∧ (checkFarm cfg o t st).2.filter isUnlockCall =
        (if cfg.autoExpandLand &&
            (analyzeLands lands t.nowSec).eligibleForUnlock.length > 0 then
          ((analyzeLands lands t.nowSec).eligibleForUnlock.filter
            (cooldownEligible st.unlockRetryCooldown t.unlockNowMs)).map
            Call.unlockOne
        else [])
    ∧ (checkFarm cfg o t st).2.filter isUpgradeCall =
        (if cfg.autoUpgradeRedLand &&
            (analyzeLands lands t.nowSec).eligibleForUpgrade.length > 0 then
          ((analyzeLands lands t.nowSec).eligibleForUpgrade.filter
            (cooldownEligible
              (harvestPhase (analyzeLands lands t.nowSec).harvestable
                o.harvestOk st.upgradeRetryCooldown).1.2 t.upgradeNowMs)).map
            Call.upgradeOne
        else []) := by
  have htr := checkFarm_trace_eq cfg o t st lands hflag hgid hlands hne
  refine ⟨?_, ?_, ?_, ?_, ?_, ?_, ?_⟩
  · rw [htr]
    simp only [List.append_assoc]
    have hP := plantSegOf_phase cfg o t st lands
    have b5 := pairwise_const_phase hP
    have r5 : ∀ c ∈ _, 4 ≤ callPhase c := fun c hc => by rw [hP c hc]; omega
    have s4 := pairwise_build (upgradePhase_phase cfg o t
      (analyzeLands lands t.nowSec).eligibleForUpgrade
      (harvestPhase (analyzeLands lands t.nowSec).harvestable o.harvestOk
        st.upgradeRetryCooldown).1.2) r5 b5
    have r4 : ∀ c ∈ _, 3 ≤ callPhase c :=
      fun c hc => le_trans (by omega) (s4.2 c hc)
    have s3 := pairwise_build (unlockPhase_phase cfg o t
      (analyzeLands lands t.nowSec).eligibleForUnlock
      st.unlockRetryCooldown) r4 s4.1
    have r3 : ∀ c ∈ _, 2 ≤ callPhase c :=
      fun c hc => le_trans (by omega) (s3.2 c hc)
    have s2 := pairwise_build (harvestPhase_phase
      (analyzeLands lands t.nowSec).harvestable o.harvestOk
      st.upgradeRetryCooldown) r3 s3.1
    have r2 : ∀ c ∈ _, 1 ≤ callPhase c :=
      fun c hc => le_trans (by omega) (s2.2 c hc)
    have s1 := pairwise_build (batchMaintenance_phase
      (analyzeLands lands t.nowSec)) r2 s2.1
    exact List.Pairwise.cons (fun b hb => Nat.zero_le _) s1.1
  all_goals rw [htr]
  · have h2 := filter_nil_of_phase (harvestPhase_phase
      (analyzeLands lands t.nowSec).harvestable o.harvestOk
      st.upgradeRetryCooldown) isWeedCall_phase (by decide)
    have h3 := filter_nil_of_phase (unlockPhase_phase cfg o t
      (analyzeLands lands t.nowSec).eligibleForUnlock st.unlockRetryCooldown)
      isWeedCall_phase (by decide)
    have h4 := filter_nil_of_phase (upgradePhase_phase cfg o t
      (analyzeLands lands t.nowSec).eligibleForUpgrade
      (harvestPhase (analyzeLands lands t.nowSec).harvestable o.harvestOk
        st.upgradeRetryCooldown).1.2) isWeedCall_phase (by decide)
    have h5 := filter_nil_of_phase (plantSegOf_phase cfg o t st lands)
      isWeedCall_phase (by decide)
    simp [List.filter_append, maint_filter_weed, h2, h3, h4, h5, isWeedCall]
  · have h2 := filter_nil_of_phase (harvestPhase_phase
      (analyzeLands lands t.nowSec).harvestable o.harvestOk
      st.upgradeRetryCooldown) isBugCall_phase (by decide)
    have h3 := filter_nil_of_phase (unlockPhase_phase cfg o t
      (analyzeLands lands t.nowSec).eligibleForUnlock st.unlockRetryCooldown)
      isBugCall_phase (by decide)
    have h4 := filter_nil_of_phase (upgradePhase_phase cfg o t
      (analyzeLands lands t.nowSec).eligibleForUpgrade
      (harvestPhase (analyzeLands lands t.nowSec).harvestable o.harvestOk
        st.upgradeRetryCooldown).1.2) isBugCall_phase (by decide)
    have h5 := filter_nil_of_phase (plantSegOf_phase cfg o t st lands)
      isBugCall_phase (by decide)
    simp [List.filter_append, maint_filter_bug, h2, h3, h4, h5, isBugCall]
  · have h2 := filter_nil_of_phase (harvestPhase_phase
      (analyzeLands lands t.nowSec).harvestable o.harvestOk
      st.upgradeRetryCooldown) isWaterCall_phase (by decide)
    have h3 := filter_nil_of_phase (unlockPhase_phase cfg o t
      (analyzeLands lands t.nowSec).eligibleForUnlock st.unlockRetryCooldown)
      isWaterCall_phase (by decide)
    have h4 := filter_nil_of_phase (upgradePhase_phase cfg o t
      (analyzeLands lands t.nowSec).eligibleForUpgrade
      (harvestPhase (analyzeLands lands t.nowSec).harvestable o.harvestOk
        st.upgradeRetryCooldown).1.2) isWaterCall_phase (by decide)
    have h5 := filter_nil_of_phase (plantSegOf_phase cfg o t st lands)
      isWaterCall_phase (by decide)
    simp [List.filter_append, maint_filter_water, h2, h3, h4, h5, isWaterCall]
  · have h1 := filter_nil_of_phase (batchMaintenance_phase
      (analyzeLands lands t.nowSec)) isHarvestCall_phase (by decide)
    have h3 := filter_nil_of_phase (unlockPhase_phase cfg o t
      (analyzeLands lands t.nowSec).eligibleForUnlock st.unlockRetryCooldown)
      isHarvestCall_phase (by decide)
    have h4 := filter_nil_of_phase (upgradePhase_phase cfg o t
      (analyzeLands lands t.nowSec).eligibleForUpgrade
      (harvestPhase (analyzeLands lands t.nowSec).harvestable o.harvestOk
        st.upgradeRetryCooldown).1.2) isHarvestCall_phase (by decide)
    have h5 := filter_nil_of_phase (plantSegOf_phase cfg o t st lands)
      isHarvestCall_phase (by decide)
    rw [harvestPhase_trace] at *
    simp [List.filter_append, h1, h3, h4, h5, isHarvestCall]
  · have h1 := filter_nil_of_phase (batchMaintenance_phase
      (analyzeLands lands t.nowSec)) isUnlockCall_phase (by decide)
    have h2 := filter_nil_of_phase (harvestPhase_phase
      (analyzeLands lands t.nowSec).harvestable o.harvestOk
      st.upgradeRetryCooldown) isUnlockCall_phase (by decide)
    have h4 := filter_nil_of_phase (upgradePhase_phase cfg o t
      (analyzeLands lands t.nowSec).eligibleForUpgrade
      (harvestPhase (analyzeLands lands t.nowSec).harvestable o.harvestOk
        st.upgradeRetryCooldown).1.2) isUnlockCall_phase (by decide)
    have h5 := filter_nil_of_phase (plantSegOf_phase cfg o t st lands)
      isUnlockCall_phase (by decide)
    rw [unlockPhase_trace]
    split
    · simp [List.filter_append, h1, h2, h4, h5, filter_isUnlock_map,
        isUnlockCall]
    · simp [List.filter_append, h1, h2, h4, h5, isUnlockCall]
  · have h1 := filter_nil_of_phase (batchMaintenance_phase
      (analyzeLands lands t.nowSec)) isUpgradeCall_phase (by decide)
    have h2 := filter_nil_of_phase (harvestPhase_phase
      (analyzeLands lands t.nowSec).harvestable o.harvestOk
      st.upgradeRetryCooldown) isUpgradeCall_phase (by decide)
    have h3 := filter_nil_of_phase (unlockPhase_phase cfg o t
      (analyzeLands lands t.nowSec).eligibleForUnlock st.unlockRetryCooldown)
      isUpgradeCall_phase (by decide)
    have h5 := filter_nil_of_phase (plantSegOf_phase cfg o t st lands)
      isUpgradeCall_phase (by decide)
    rw [upgradePhase_trace]
    split
    · simp [List.filter_append, h1, h2, h3, h5, filter_isUpgrade_map,
        isUpgradeCall]
    · simp [List.filter_append, h1, h2, h3, h5, isUpgradeCall]

/-- Witness for C1 on the four-plot sample cycle with both expansion
features enabled. -/
theorem c1_orchestrator_order_witness :
    List.Pairwise (fun a b => callPhase a ≤ callPhase b)
      (checkFarm ⟨true, true, 0, false⟩ sampleOracle sampleTimes
        sampleIdleState).2 :=
  (c1_orchestrator_order ⟨true, true, 0, false⟩ sampleOracle sampleTimes
    sampleIdleState sampleLands rfl (by decide) rfl (by decide)).1

end Farm

